import Mathlib

/-!
# Crown engine: resource dispatch registry and world management

A shallow embedding of `engine/resource/resource_registry.cpp` and
`engine/world/World.cpp`.

Conventions of the embedding.

* Pointers (`Unit*`, `Camera*`, `Actor*`, `UnitResource*`, `void*`) are natural
  numbers; floats are carried as their bit patterns (the code only moves them).
* `CE_ASSERT`, `CE_ASSERT_NOT_NULL` and `CE_FATAL` end the operation with a
  `Fatal` value.
* Calls into collaborators whose code is elsewhere (resource classes, `Unit`,
  the physics, scene-graph and sound worlds, the Lua environment) are recorded
  in a list of effects, in the order the code makes them.
-/

namespace Crown

/-! ## Fatal conditions -/

/-- The ways an operation of this development can stop without returning. -/
inductive Fatal where
  /-- `CE_ASSERT_NOT_NULL(c)` failed. -/
  | assert_not_null
  /-- `CE_ASSERT(cond, msg)` failed; carries the message. -/
  | assert (msg : String)
  /-- `CE_FATAL(msg)` reached; carries the message. -/
  | fatal (msg : String)
  /-- A call through a `NULL` function pointer. -/
  | null_call
  deriving DecidableEq, Repr

/-! ## resource_registry.cpp -/

/-- The resource classes whose static functions fill the table. -/
inductive ResourceClass where
  | LuaResource
  | TextureResource
  | MeshResource
  | SoundResource
  | UnitResource
  | SpriteResource
  | PackageResource
  | PhysicsResource
  | MaterialResource
  | PhysicsConfigResource
  | FontResource
  | LevelResource
  deriving DecidableEq, Repr

/-- The four static functions every resource class provides. -/
inductive Hook where
  | load
  | unload
  | online
  | offline
  deriving DecidableEq, Repr

/-- A non-null function pointer of the table, such as `LuaResource::load`. -/
structure FnPtr where
  cls : ResourceClass
  hook : Hook
  deriving DecidableEq, Repr

/-- One `ResourceCallback` row: `{ type, on_load, on_unload, on_online, on_offline }`;
`none` is a `NULL` function pointer. -/
structure ResourceCallback where
  type : Nat
  on_load : Option FnPtr
  on_unload : Option FnPtr
  on_online : Option FnPtr
  on_offline : Option FnPtr
  deriving DecidableEq, Repr

/-- The `*_TYPE` constants. They are defined in the resource headers, which are
not part of the sources at hand, so the table is parameterised by them. -/
structure ResourceTypes where
  LUA_TYPE : Nat
  TEXTURE_TYPE : Nat
  MESH_TYPE : Nat
  SOUND_TYPE : Nat
  UNIT_TYPE : Nat
  SPRITE_TYPE : Nat
  PACKAGE_TYPE : Nat
  PHYSICS_TYPE : Nat
  MATERIAL_TYPE : Nat
  PHYSICS_CONFIG_TYPE : Nat
  FONT_TYPE : Nat
  LEVEL_TYPE : Nat
  deriving DecidableEq, Repr

/-- A row `{ T, C::load, C::unload, C::online, C::offline }`. -/
def ResourceCallback.row (type : Nat) (c : ResourceClass) : ResourceCallback :=
  { type := type
    on_load := some ⟨c, Hook.load⟩
    on_unload := some ⟨c, Hook.unload⟩
    on_online := some ⟨c, Hook.online⟩
    on_offline := some ⟨c, Hook.offline⟩ }

/-- The terminating row `{ 0, NULL, NULL, NULL, NULL }`. -/
def ResourceCallback.sentinel : ResourceCallback :=
  { type := 0, on_load := none, on_unload := none, on_online := none, on_offline := none }

/-- The static array `RESOURCE_CALLBACK_REGISTRY`, row for row. -/
def RESOURCE_CALLBACK_REGISTRY (T : ResourceTypes) : List ResourceCallback :=
  [ ResourceCallback.row T.LUA_TYPE ResourceClass.LuaResource,
    ResourceCallback.row T.TEXTURE_TYPE ResourceClass.TextureResource,
    ResourceCallback.row T.MESH_TYPE ResourceClass.MeshResource,
    ResourceCallback.row T.SOUND_TYPE ResourceClass.SoundResource,
    ResourceCallback.row T.UNIT_TYPE ResourceClass.UnitResource,
    ResourceCallback.row T.SPRITE_TYPE ResourceClass.SpriteResource,
    ResourceCallback.row T.PACKAGE_TYPE ResourceClass.PackageResource,
    ResourceCallback.row T.PHYSICS_TYPE ResourceClass.PhysicsResource,
    ResourceCallback.row T.MATERIAL_TYPE ResourceClass.MaterialResource,
    ResourceCallback.row T.PHYSICS_CONFIG_TYPE ResourceClass.PhysicsConfigResource,
    ResourceCallback.row T.FONT_TYPE ResourceClass.FontResource,
    ResourceCallback.row T.LEVEL_TYPE ResourceClass.LevelResource,
    ResourceCallback.sentinel ]

/-- The rows of the table before the final sentinel row. -/
def registered_rows (T : ResourceTypes) : List ResourceCallback :=
  (RESOURCE_CALLBACK_REGISTRY T).dropLast

/-- The type tags of the rows before the sentinel, in table order. -/
def registered_types (T : ResourceTypes) : List Nat :=
  (registered_rows T).map ResourceCallback.type

/-- The assumption on the `*_TYPE` constants: none is the reserved tag `0` and no
two are equal. -/
def ResourceTypes.Valid (T : ResourceTypes) : Prop :=
  0 ∉ registered_types T ∧ (registered_types T).Nodup

instance (T : ResourceTypes) : Decidable T.Valid := by
  unfold ResourceTypes.Valid; exact inferInstance

/-- The loop of `find_callback`, with `c` pointing at the head of the remaining
rows: `while (c->type != 0) { if (c->type == type) return c; c++; } return NULL;`.
The array always ends in the sentinel, so the empty case is never reached from
the table. -/
def find_callback_from : List ResourceCallback → Nat → Option ResourceCallback
  | [], _ => none
  | c :: rest, type =>
    if c.type != 0 then
      if c.type == type then some c else find_callback_from rest type
    else none

/-- The function `find_callback(type)`: the row found, or `none` for `NULL`. -/
def find_callback (T : ResourceTypes) (type : Nat) : Option ResourceCallback :=
  find_callback_from (RESOURCE_CALLBACK_REGISTRY T) type

/-- What the resource classes do when called: the collaborators behind the
function pointers. Only `load` returns a value. -/
structure ResourceImpl where
  load : FnPtr → Nat → Nat → Nat → Nat

/-- A call made through a function pointer of the table, with its arguments. -/
inductive ResourceCall where
  | on_load (f : FnPtr) (allocator bundle id : Nat)
  | on_unload (f : FnPtr) (allocator resource : Nat)
  | on_online (f : FnPtr) (resource : Nat)
  | on_offline (f : FnPtr) (resource : Nat)
  deriving DecidableEq, Repr

/-- The function `resource_on_load(type, allocator, bundle, id)`: the returned
pointer and the calls made. -/
def resource_on_load (T : ResourceTypes) (I : ResourceImpl) (type allocator bundle id : Nat) :
    Except Fatal (Nat × List ResourceCall) :=
  match find_callback T type with
  | none => Except.error Fatal.assert_not_null
  | some c =>
    match c.on_load with
    | none => Except.error Fatal.null_call
    | some f => Except.ok (I.load f allocator bundle id, [ResourceCall.on_load f allocator bundle id])

/-- The function `resource_on_unload(type, allocator, resource)`: the calls made. -/
def resource_on_unload (T : ResourceTypes) (type allocator resource : Nat) :
    Except Fatal (List ResourceCall) :=
  match find_callback T type with
  | none => Except.error Fatal.assert_not_null
  | some c =>
    match c.on_unload with
    | none => Except.error Fatal.null_call
    | some f => Except.ok [ResourceCall.on_unload f allocator resource]

/-- The function `resource_on_online(type, resource)`: the calls made. -/
def resource_on_online (T : ResourceTypes) (type resource : Nat) :
    Except Fatal (List ResourceCall) :=
  match find_callback T type with
  | none => Except.error Fatal.assert_not_null
  | some c =>
    match c.on_online with
    | none => Except.error Fatal.null_call
    | some f => Except.ok [ResourceCall.on_online f resource]

/-- The function `resource_on_offline(type, resource)`: the calls made. -/
def resource_on_offline (T : ResourceTypes) (type resource : Nat) :
    Except Fatal (List ResourceCall) :=
  match find_callback T type with
  | none => Except.error Fatal.assert_not_null
  | some c =>
    match c.on_offline with
    | none => Except.error Fatal.null_call
    | some f => Except.ok [ResourceCall.on_offline f resource]

/-- A sample assignment of the type constants, used to instantiate the theorems. -/
def sampleTypes : ResourceTypes :=
  { LUA_TYPE := 1, TEXTURE_TYPE := 2, MESH_TYPE := 3, SOUND_TYPE := 4, UNIT_TYPE := 5,
    SPRITE_TYPE := 6, PACKAGE_TYPE := 7, PHYSICS_TYPE := 8, MATERIAL_TYPE := 9,
    PHYSICS_CONFIG_TYPE := 10, FONT_TYPE := 11, LEVEL_TYPE := 12 }

/-- A sample resource implementation: `load` returns a pointer computed from its
arguments. -/
def sampleImpl : ResourceImpl :=
  { load := fun _ allocator bundle id => allocator + bundle + id + 1 }

/-! ## Physics event stream: World::process_physics_events -/

/-- The struct `event_stream::Header`: `{ type, size }`. -/
structure Header where
  type : Nat
  size : Nat
  deriving DecidableEq, Repr

/-- A `Vector3`; each coordinate is the bit pattern of a float. -/
structure Vector3 where
  x : Nat
  y : Nat
  z : Nat
  deriving DecidableEq, Repr

/-- The struct `physics_world::CollisionEvent`: the touch phase `type`, the two
actor pointers `actors[0]` and `actors[1]`, the contact point and the normal. -/
structure CollisionEvent where
  type : Nat
  actor0 : Nat
  actor1 : Nat
  where_ : Vector3
  normal : Vector3
  deriving DecidableEq, Repr

/-- The platform-dependent part of the event stream, declared in headers that are
not part of the sources at hand: the object representation of `Header` and of
`CollisionEvent` (how `*(T*) p` reads bytes and how `(char*) &x` lays them out),
which values those representations can hold, and the enumerators the drain
compares against. -/
structure Layout where
  /-- `sizeof(event_stream::Header)`. -/
  sizeof_Header : Nat
  /-- The bytes of a header object. -/
  store_Header : Header → List Nat
  /-- `*(event_stream::Header*) p`, given the bytes from `p` on. -/
  load_Header : List Nat → Header
  /-- Whether a header fits its fields. -/
  fits_Header : Header → Bool
  /-- `sizeof(physics_world::CollisionEvent)`. -/
  sizeof_CollisionEvent : Nat
  /-- The bytes of a collision event object. -/
  store_CollisionEvent : CollisionEvent → List Nat
  /-- `*(physics_world::CollisionEvent*) p`, given the bytes from `p` on. -/
  load_CollisionEvent : List Nat → CollisionEvent
  /-- Whether a collision event fits its fields. -/
  fits_CollisionEvent : CollisionEvent → Bool
  /-- `physics_world::EventType::COLLISION`. -/
  COLLISION : Nat
  /-- `physics_world::EventType::TRIGGER`. -/
  TRIGGER : Nat
  /-- `physics_world::CollisionEvent::BEGIN_TOUCH`. -/
  BEGIN_TOUCH : Nat

/-- What any C++ platform guarantees of the layout: an object occupies `sizeof`
bytes, reading back the bytes of an object gives the object, a header is not
empty, and the two enumerators differ. -/
structure Layout.Lawful (L : Layout) : Prop where
  sizeof_Header_pos : 0 < L.sizeof_Header
  store_Header_length : ∀ h, (L.store_Header h).length = L.sizeof_Header
  load_store_Header : ∀ h rest, L.fits_Header h = true →
    L.load_Header (L.store_Header h ++ rest) = h
  store_CollisionEvent_length :
    ∀ e, (L.store_CollisionEvent e).length = L.sizeof_CollisionEvent
  load_store_CollisionEvent : ∀ e rest, L.fits_CollisionEvent e = true →
    L.load_CollisionEvent (L.store_CollisionEvent e ++ rest) = e
  COLLISION_ne_TRIGGER : L.COLLISION ≠ L.TRIGGER

/-- The arguments of one `call_physics_callback` call on the Lua environment. -/
structure PhysicsCallback where
  actor0 : Nat
  actor1 : Nat
  unit0 : Nat
  unit1 : Nat
  where_ : Vector3
  normal : Vector3
  phase : String
  deriving DecidableEq, Repr

/-- How a run of the drain loop ends. -/
inductive DrainStatus where
  /-- The read pointer reached `array::end(events)`. -/
  | drained
  /-- The `default:` branch was taken: `CE_FATAL("Unknown Physics event")`. -/
  | fatal (f : Fatal)
  /-- A read or the advance of the pointer went past the end of the buffer
  (undefined behaviour in C++). -/
  | out_of_bounds
  /-- The iteration budget of the model ran out. -/
  | out_of_fuel
  deriving DecidableEq, Repr

/-- What a run of the drain loop did: how it ended, the scripting callbacks it
made, and the headers it read, both in order. -/
structure DrainResult where
  status : DrainStatus
  callbacks : List PhysicsCallback
  headers : List Header
  deriving DecidableEq, Repr

/-- A run that stops at once with the given status. -/
def DrainResult.stop (s : DrainStatus) : DrainResult :=
  { status := s, callbacks := [], headers := [] }

/-- Put one iteration, its header and its callback if any, in front of the rest
of the run. -/
def DrainResult.after (h : Header) (cb : Option PhysicsCallback) (r : DrainResult) :
    DrainResult :=
  { status := r.status, callbacks := cb.toList ++ r.callbacks, headers := h :: r.headers }

/-- The call made for a collision event: the two actors, their units
(`actors[i]->unit()`, given by `unit_of`), the point, the normal and the phase
string `(coll_ev.type == BEGIN_TOUCH) ? "begin" : "end"`. -/
def collision_callback (L : Layout) (unit_of : Nat → Nat) (coll_ev : CollisionEvent) :
    PhysicsCallback :=
  { actor0 := coll_ev.actor0
    actor1 := coll_ev.actor1
    unit0 := unit_of coll_ev.actor0
    unit1 := unit_of coll_ev.actor1
    where_ := coll_ev.where_
    normal := coll_ev.normal
    phase := if coll_ev.type = L.BEGIN_TOUCH then "begin" else "end" }

/-- The `while (ee != array::end(events))` loop of `process_physics_events`; the
second argument is the bytes from `ee` to the end of the buffer. Each turn reads
the header at `ee`, switches on `h.type`, and advances `ee` by
`sizeof(Header) + h.size`. -/
def drain_loop (L : Layout) (unit_of : Nat → Nat) : Nat → List Nat → DrainResult
  | 0, _ => DrainResult.stop DrainStatus.out_of_fuel
  | fuel + 1, ee =>
    if ee = [] then DrainResult.stop DrainStatus.drained
    else if ee.length < L.sizeof_Header then DrainResult.stop DrainStatus.out_of_bounds
    else
      let h := L.load_Header ee
      let event := ee.drop L.sizeof_Header
      if h.type = L.COLLISION then
        if event.length < L.sizeof_CollisionEvent then
          DrainResult.after h none (DrainResult.stop DrainStatus.out_of_bounds)
        else
          let coll_ev := L.load_CollisionEvent event
          DrainResult.after h (some (collision_callback L unit_of coll_ev))
            (if ee.length < L.sizeof_Header + h.size then
              DrainResult.stop DrainStatus.out_of_bounds
             else drain_loop L unit_of fuel (ee.drop (L.sizeof_Header + h.size)))
      else if h.type = L.TRIGGER then
        DrainResult.after h none
          (if ee.length < L.sizeof_Header + h.size then
            DrainResult.stop DrainStatus.out_of_bounds
           else drain_loop L unit_of fuel (ee.drop (L.sizeof_Header + h.size)))
      else
        DrainResult.after h none
          (DrainResult.stop (DrainStatus.fatal (Fatal.fatal "Unknown Physics event")))

/-- The body of `process_physics_events` on the buffer `m_physics_world.events()`:
run the loop from `array::begin(events)`, then `array::clear(events)`, which is
reached only when the loop ends normally. Returns the buffer afterwards and what
the run did. -/
def drain_events (L : Layout) (unit_of : Nat → Nat) (events : List Nat) :
    List Nat × DrainResult :=
  let r := drain_loop L unit_of (events.length + 1) events
  (if r.status = DrainStatus.drained then [] else events, r)

/-- A record of the stream: its type tag and its payload bytes. -/
structure Record where
  type : Nat
  payload : List Nat
  deriving DecidableEq, Repr

/-- Modelled from the spec: `event_stream::write`, whose code is not part of the
sources at hand. Appends to the stream a header `{ type, size }` with `size` the
byte length of the payload, followed by the payload bytes. -/
def event_stream_write (L : Layout) (s : List Nat) (r : Record) : List Nat :=
  s ++ (L.store_Header { type := r.type, size := r.payload.length } ++ r.payload)

/-- The stream after the records are appended to the empty stream, in order. -/
def stream_of (L : Layout) (rs : List Record) : List Nat :=
  rs.foldl (event_stream_write L) []

/-- The header `event_stream::write` gives a record. -/
def Record.header (r : Record) : Header :=
  { type := r.type, size := r.payload.length }

/-- An event the physics world appends: a collision event object, or a trigger
event given by its bytes (the drain never looks at them). -/
inductive PhysicsEvent where
  | collision (ev : CollisionEvent)
  | trigger (payload : List Nat)
  deriving DecidableEq, Repr

/-- The record written for an event: `event_stream::write(s, COLLISION, ev)`, resp.
`event_stream::write(s, TRIGGER, ev)`. -/
def PhysicsEvent.record (L : Layout) : PhysicsEvent → Record
  | PhysicsEvent.collision ev => { type := L.COLLISION, payload := L.store_CollisionEvent ev }
  | PhysicsEvent.trigger payload => { type := L.TRIGGER, payload := payload }

/-- Whether an event can be written: its header fits and, for a collision, so
does the event object. -/
def PhysicsEvent.fits (L : Layout) (e : PhysicsEvent) : Bool :=
  L.fits_Header (e.record L).header &&
    match e with
    | PhysicsEvent.collision ev => L.fits_CollisionEvent ev
    | PhysicsEvent.trigger _ => true

/-- The callback the spec asks for an event: one for a collision, with the
recorded values, none for a trigger. -/
def PhysicsEvent.expected_callback (L : Layout) (unit_of : Nat → Nat) :
    PhysicsEvent → Option PhysicsCallback
  | PhysicsEvent.collision ev =>
    some { actor0 := ev.actor0, actor1 := ev.actor1, unit0 := unit_of ev.actor0,
           unit1 := unit_of ev.actor1, where_ := ev.where_, normal := ev.normal,
           phase := if ev.type = L.BEGIN_TOUCH then "begin" else "end" }
  | PhysicsEvent.trigger _ => none

/-- A record is framed when its header fits and, if it is tagged as a collision,
its payload is at least a collision event long. -/
def Record.framed (L : Layout) (r : Record) : Bool :=
  L.fits_Header r.header &&
    (if r.type = L.COLLISION then decide (L.sizeof_CollisionEvent ≤ r.payload.length) else true)

/-- A record whose tag is neither `COLLISION` nor `TRIGGER`. -/
def Record.unknown (L : Layout) (r : Record) : Bool :=
  decide (r.type ≠ L.COLLISION) && decide (r.type ≠ L.TRIGGER)

/-! ### A sample layout: packed little-endian fields -/

/-- The `k` little-endian bytes of `n`. -/
def le_bytes : Nat → Nat → List Nat
  | 0, _ => []
  | k + 1, n => n % 256 :: le_bytes k (n / 256)

/-- The number read from the first `k` bytes, little-endian. -/
def le_value : Nat → List Nat → Nat
  | 0, _ => 0
  | _ + 1, [] => 0
  | k + 1, b :: bs => b + 256 * le_value k bs

/-- Bytes of a `Vector3`: three 32-bit fields. -/
def store_Vector3 (v : Vector3) : List Nat :=
  le_bytes 4 v.x ++ (le_bytes 4 v.y ++ le_bytes 4 v.z)

/-- Read a `Vector3` from the bytes at hand. -/
def load_Vector3 (bs : List Nat) : Vector3 :=
  { x := le_value 4 bs, y := le_value 4 (bs.drop 4), z := le_value 4 ((bs.drop 4).drop 4) }

/-- Whether the coordinates are 32-bit patterns. -/
def fits_Vector3 (v : Vector3) : Bool :=
  decide (v.x < 256 ^ 4) && (decide (v.y < 256 ^ 4) && decide (v.z < 256 ^ 4))

/-- A sample layout: 32-bit tags and sizes, 64-bit pointers, 32-bit floats, fields
packed in declaration order, `COLLISION = 0`, `TRIGGER = 1`, `BEGIN_TOUCH = 0`. -/
def sampleLayout : Layout :=
  { sizeof_Header := 8
    store_Header := fun h => le_bytes 4 h.type ++ le_bytes 4 h.size
    load_Header := fun bs => { type := le_value 4 bs, size := le_value 4 (bs.drop 4) }
    fits_Header := fun h => decide (h.type < 256 ^ 4) && decide (h.size < 256 ^ 4)
    sizeof_CollisionEvent := 44
    store_CollisionEvent := fun e =>
      le_bytes 4 e.type ++ (le_bytes 8 e.actor0 ++ (le_bytes 8 e.actor1 ++
        (store_Vector3 e.where_ ++ store_Vector3 e.normal)))
    load_CollisionEvent := fun bs =>
      { type := le_value 4 bs
        actor0 := le_value 8 (bs.drop 4)
        actor1 := le_value 8 ((bs.drop 4).drop 8)
        where_ := load_Vector3 (((bs.drop 4).drop 8).drop 8)
        normal := load_Vector3 ((((bs.drop 4).drop 8).drop 8).drop 12) }
    fits_CollisionEvent := fun e =>
      decide (e.type < 256 ^ 4) && (decide (e.actor0 < 256 ^ 8) && (decide (e.actor1 < 256 ^ 8) &&
        (fits_Vector3 e.where_ && fits_Vector3 e.normal)))
    COLLISION := 0
    TRIGGER := 1
    BEGIN_TOUCH := 0 }

/-- A sample `actors[i]->unit()`: the unit of the actor at address `a`. -/
def sampleUnitOf (a : Nat) : Nat := a + 1000

/-- A sample collision event: actors `100` and `200` begin to touch. -/
def sampleCollision : CollisionEvent :=
  { type := 0, actor0 := 100, actor1 := 200
    where_ := { x := 1, y := 2, z := 3 }, normal := { x := 4, y := 5, z := 6 } }

/-- A sample collision event: actors `300` and `400` stop touching. -/
def sampleCollisionEnd : CollisionEvent :=
  { type := 1, actor0 := 300, actor1 := 400
    where_ := { x := 7, y := 8, z := 9 }, normal := { x := 10, y := 11, z := 12 } }

/-! ## Handle table and pool -/

/-- A handle (`UnitId`, `CameraId`): the slot it names and the generation token
the slot had when the handle was made. -/
structure Id where
  index : Nat
  id : Nat
  deriving DecidableEq, Repr

/-- Modelled from the spec: the handle table `IdArray`, whose code is not part of
the sources at hand. It holds the live entries, each a handle and the object
pointer bound to it, in creation order, hands out generation tokens from a
counter, and has a fixed number of slots. -/
structure IdArray where
  capacity : Nat
  next_id : Nat
  entries : List (Id × Nat)
  deriving DecidableEq, Repr

/-- Modelled from the spec: a handle table with no live entry. -/
def IdArray.empty (capacity : Nat) : IdArray :=
  { capacity := capacity, next_id := 0, entries := [] }

/-- Modelled from the spec: `has(handle)` is true iff the handle's slot is occupied
and its generation matches. -/
def IdArray.has (a : IdArray) (h : Id) : Bool :=
  a.entries.any (fun e => e.1.index == h.index && e.1.id == h.id)

/-- Modelled from the spec: `lookup(handle)` gives the object pointer bound to a
live handle, and is fatal when `has(handle)` is false. -/
def IdArray.lookup (a : IdArray) (h : Id) : Except Fatal Nat :=
  match a.entries.find? (fun e => e.1 == h) with
  | some e => Except.ok e.2
  | none => Except.error (Fatal.assert "IdArray does not have ID")

/-- Modelled from the spec: the lowest slot no live entry occupies, if any. -/
def IdArray.free_slot (a : IdArray) : Option Nat :=
  (List.range a.capacity).find? (fun i => !(a.entries.any (fun e => e.1.index == i)))

/-- Modelled from the spec: `create(object)` takes the next free slot and the next
generation token, binds them to the object pointer and returns the handle;
exceeding the capacity is fatal. -/
def IdArray.create (a : IdArray) (object : Nat) : Except Fatal (Id × IdArray) :=
  match a.free_slot with
  | none => Except.error (Fatal.assert "IdArray is full")
  | some slot =>
    let h : Id := { index := slot, id := a.next_id }
    Except.ok (h, { a with next_id := a.next_id + 1, entries := a.entries ++ [(h, object)] })

/-- Modelled from the spec: `destroy(handle)` releases the slot for reuse and
invalidates the handle. -/
def IdArray.destroy (a : IdArray) (h : Id) : IdArray :=
  { a with entries := a.entries.filter (fun e => e.1 != h) }

/-- Modelled from the spec: `size()` is the count of live entries. -/
def IdArray.size (a : IdArray) : Nat :=
  a.entries.length

/-- Modelled from the spec: the object pointers of the live entries; `a[i]` for
`i < a.size()` is the `i`-th of them. -/
def IdArray.objects (a : IdArray) : List Nat :=
  a.entries.map (fun e => e.2)

/-- Modelled from the spec: the pooled allocator `PoolAllocator`, whose code is
not part of the sources at hand: a fixed number of blocks of one size; a pointer
is the number of its block. -/
structure PoolAllocator where
  num_blocks : Nat
  allocated : List Nat
  deriving DecidableEq, Repr

/-- Modelled from the spec: a pool with every block free. -/
def PoolAllocator.empty (num_blocks : Nat) : PoolAllocator :=
  { num_blocks := num_blocks, allocated := [] }

/-- Modelled from the spec: the lowest free block, if any. -/
def PoolAllocator.free_block (p : PoolAllocator) : Option Nat :=
  (List.range p.num_blocks).find? (fun i => !(p.allocated.contains i))

/-- Modelled from the spec: `allocate` hands out a free block; allocation beyond
the capacity fails, fatally. -/
def PoolAllocator.allocate (p : PoolAllocator) : Except Fatal (Nat × PoolAllocator) :=
  match p.free_block with
  | none => Except.error (Fatal.assert "Out of memory")
  | some b => Except.ok (b, { p with allocated := b :: p.allocated })

/-- Modelled from the spec: `deallocate` returns a block to the pool. -/
def PoolAllocator.deallocate (p : PoolAllocator) (ptr : Nat) : PoolAllocator :=
  { p with allocated := p.allocated.erase ptr }

/-- The number of allocated blocks of a pool. -/
def PoolAllocator.num_allocated (p : PoolAllocator) : Nat :=
  p.allocated.length

/-! ## Objects in pool memory -/

/-- A `Quaternion`: four float bit patterns. -/
structure Quaternion where
  x : Nat
  y : Nat
  z : Nat
  w : Nat
  deriving DecidableEq, Repr

/-- Modelled from the spec: the state of a `Unit` that the world's code reads or
sets: its handle, its resource id, its resource pointer (`resource()`), and the
pose `Matrix4x4(rot, pos)` it was spawned at. -/
structure Unit where
  m_id : Id
  m_resource_id : Nat
  m_resource : Nat
  rot : Quaternion
  pos : Vector3
  deriving DecidableEq, Repr

/-- The arguments a `Camera` is constructed from. -/
structure Camera where
  sg : Nat
  node : Int
  type : Nat
  near : Nat
  far : Nat
  deriving DecidableEq, Repr

/-- The objects in a pool's memory, by address; the entry nearest the head is the
current one. -/
abbrev Heap (α : Type) := List (Nat × α)

/-- The object at an address, if one is constructed there. -/
def Heap.read {α : Type} (h : Heap α) (p : Nat) : Option α :=
  (h.find? (fun e => e.1 == p)).map (fun e => e.2)

/-- Construct or overwrite the object at an address. -/
def Heap.write {α : Type} (h : Heap α) (p : Nat) (v : α) : Heap α :=
  (p, v) :: h.filter (fun e => e.1 != p)

/-- Destruct the object at an address. -/
def Heap.free {α : Type} (h : Heap α) (p : Nat) : Heap α :=
  h.filter (fun e => e.1 != p)

/-! ## World.cpp -/

/-- A call the world makes into a collaborator, with its arguments. -/
inductive Effect where
  /-- The call `unit->reload(new_ur)` on the unit at address `unit`. -/
  | unit_reload (unit new_ur : Nat)
  /-- The call `unit->link_node(child, parent)` on the unit at address `unit`. -/
  | unit_link_node (unit : Nat) (child parent : Int)
  /-- The call `m_physics_world.update(dt)`. -/
  | physics_update (dt : Nat)
  /-- The call `m_scenegraph_manager.update()`. -/
  | scenegraph_update
  /-- The call `m_sound_world->update()`. -/
  | sound_update
  /-- The call `lua_environment()->call_physics_callback(...)`. -/
  | physics_callback (cb : PhysicsCallback)
  deriving DecidableEq, Repr

/-- The world: the two pools, the two handle tables, the objects constructed in
the pools, the event buffer of the physics world, and whether the sound world
exists. -/
structure World where
  m_unit_pool : PoolAllocator
  m_camera_pool : PoolAllocator
  m_units : IdArray
  m_cameras : IdArray
  unit_heap : Heap Unit
  camera_heap : Heap Camera
  physics_events : List Nat
  m_sound_world : Bool
  deriving DecidableEq, Repr

/-- The constructor `World::World()`: pools of `CE_MAX_UNITS` and `CE_MAX_CAMERAS`
blocks, empty tables of the same capacities, and a new sound world. -/
def World.new (CE_MAX_UNITS CE_MAX_CAMERAS : Nat) : World :=
  { m_unit_pool := PoolAllocator.empty CE_MAX_UNITS
    m_camera_pool := PoolAllocator.empty CE_MAX_CAMERAS
    m_units := IdArray.empty CE_MAX_UNITS
    m_cameras := IdArray.empty CE_MAX_CAMERAS
    unit_heap := []
    camera_heap := []
    physics_events := []
    m_sound_world := true }

/-- The function `World::spawn_unit(id, ur, pos, rot)`: allocate from the unit pool,
create the handle, construct the unit in place, return the handle. -/
def World.spawn_unit (w : World) (id ur : Nat) (pos : Vector3) (rot : Quaternion) :
    Except Fatal (Id × World) :=
  match w.m_unit_pool.allocate with
  | Except.error e => Except.error e
  | Except.ok (u, pool) =>
    match w.m_units.create u with
    | Except.error e => Except.error e
    | Except.ok (unit_id, units) =>
      Except.ok (unit_id,
        { w with
          m_unit_pool := pool
          m_units := units
          unit_heap := w.unit_heap.write u
            { m_id := unit_id, m_resource_id := id, m_resource := ur, rot := rot, pos := pos } })

/-- The function `World::destroy_unit(id)`. -/
def World.destroy_unit (w : World) (id : Id) : Except Fatal World :=
  if w.m_units.has id then
    match w.m_units.lookup id with
    | Except.error e => Except.error e
    | Except.ok u =>
      Except.ok
        { w with
          m_unit_pool := w.m_unit_pool.deallocate u
          unit_heap := w.unit_heap.free u
          m_units := w.m_units.destroy id }
  else Except.error (Fatal.assert "Unit does not exist")

/-- Modelled from the spec: `Unit::reload(new_ur)`, whose code is not part of the
sources at hand: the unit rebinds to the new resource in place, keeping its
handle and pose. -/
def Unit.reload (u : Unit) (new_ur : Nat) : Unit :=
  { u with m_resource := new_ur }

/-- The loop of `World::reload_units` over the remaining object pointers
`m_units[i], m_units[i+1], ...`: a unit whose `resource()` is `old_ur` is told to
reload. The table is not changed by the loop, so the pointers are fixed. -/
def reload_loop (old_ur new_ur : Nat) : List Nat → Heap Unit → Heap Unit × List Effect
  | [], heap => (heap, [])
  | u :: rest, heap =>
    match heap.read u with
    | some obj =>
      if obj.m_resource = old_ur then
        let r := reload_loop old_ur new_ur rest (heap.write u (obj.reload new_ur))
        (r.1, Effect.unit_reload u new_ur :: r.2)
      else reload_loop old_ur new_ur rest heap
    | none => reload_loop old_ur new_ur rest heap

/-- The function `World::reload_units(old_ur, new_ur)`: the world afterwards and the
calls made. -/
def World.reload_units (w : World) (old_ur new_ur : Nat) : World × List Effect :=
  let r := reload_loop old_ur new_ur w.m_units.objects w.unit_heap
  ({ w with unit_heap := r.1 }, r.2)

/-- The function `World::num_units()`. -/
def World.num_units (w : World) : Nat :=
  w.m_units.size

/-- The function `World::lookup_unit(unit)`. -/
def World.lookup_unit (w : World) (unit : Id) : Except Fatal Nat :=
  if w.m_units.has unit then w.m_units.lookup unit
  else Except.error (Fatal.assert "Unit does not exist")

/-- The function `World::lookup_camera(camera)`. -/
def World.lookup_camera (w : World) (camera : Id) : Except Fatal Nat :=
  if w.m_cameras.has camera then w.m_cameras.lookup camera
  else Except.error (Fatal.assert "Camera does not exist")

/-- The function `World::link_unit(child, parent, node)`: after the two assertions,
`parent_unit->link_node(0, node)`. Returns the calls made. -/
def World.link_unit (w : World) (child parent : Id) (node : Int) :
    Except Fatal (List Effect) :=
  if w.m_units.has child then
    if w.m_units.has parent then
      match w.lookup_unit parent with
      | Except.error e => Except.error e
      | Except.ok parent_unit => Except.ok [Effect.unit_link_node parent_unit 0 node]
    else Except.error (Fatal.assert "Parent unit does not exist")
  else Except.error (Fatal.assert "Child unit does not exist")

/-- The function `World::create_camera(sg, node, type, near, far)`: construct the
camera in the camera pool, create its handle. -/
def World.create_camera (w : World) (sg : Nat) (node : Int) (type near far : Nat) :
    Except Fatal (Id × World) :=
  match w.m_camera_pool.allocate with
  | Except.error e => Except.error e
  | Except.ok (camera, pool) =>
    match w.m_cameras.create camera with
    | Except.error e => Except.error e
    | Except.ok (camera_id, cameras) =>
      Except.ok (camera_id,
        { w with
          m_camera_pool := pool
          m_cameras := cameras
          camera_heap := w.camera_heap.write camera
            { sg := sg, node := node, type := type, near := near, far := far } })

/-- The function `World::destroy_camera(id)`. -/
def World.destroy_camera (w : World) (id : Id) : Except Fatal World :=
  if w.m_cameras.has id then
    match w.m_cameras.lookup id with
    | Except.error e => Except.error e
    | Except.ok camera =>
      Except.ok
        { w with
          m_camera_pool := w.m_camera_pool.deallocate camera
          camera_heap := w.camera_heap.free camera
          m_cameras := w.m_cameras.destroy id }
  else Except.error (Fatal.assert "Camera does not exist")

/-- The loop of the destructor over the remaining object pointers
`m_units[i], m_units[i+1], ...`: `CE_DELETE(m_unit_pool, m_units[i])` destructs the
unit and returns its block. -/
def delete_units_loop : List Nat → PoolAllocator → Heap Unit → PoolAllocator × Heap Unit
  | [], pool, heap => (pool, heap)
  | u :: rest, pool, heap => delete_units_loop rest (pool.deallocate u) (heap.free u)

/-- The destructor `World::~World()`: delete all units from the unit pool, then
destroy the sound world. Gives the state the member destructors then see. -/
def World.destructor (w : World) : World :=
  let r := delete_units_loop w.m_units.objects w.m_unit_pool w.unit_heap
  { w with m_unit_pool := r.1, unit_heap := r.2, m_sound_world := false }

/-- The collaborators of the per-frame update: the layout of the event stream,
`Actor::unit()`, and the event buffer the physics world holds after
`PhysicsWorld::update(dt)`, given `dt` and the buffer before. -/
structure Env where
  L : Layout
  unit_of : Nat → Nat
  physics_update : Nat → List Nat → List Nat

/-- The function `World::process_physics_events()`: the world afterwards and what
the run over the physics event buffer did. -/
def World.process_physics_events (E : Env) (w : World) : World × DrainResult :=
  let r := drain_events E.L E.unit_of w.physics_events
  ({ w with physics_events := r.1 }, r.2)

/-- The function `World::update(dt)`: physics update, scene-graph update, sound
update, then `process_physics_events()`. Returns the world afterwards, the calls
made into the collaborators in order, and how the event drain ended. -/
def World.update (E : Env) (w : World) (dt : Nat) : World × List Effect × DrainStatus :=
  let w1 := { w with physics_events := E.physics_update dt w.physics_events }
  let r := w1.process_physics_events E
  (r.1,
   [Effect.physics_update dt, Effect.scenegraph_update, Effect.sound_update] ++
     r.2.callbacks.map Effect.physics_callback,
   r.2.status)

/-! ## Sequences of operations -/

/-- One of the four operations that change the pools and the tables. -/
inductive Op where
  | spawn_unit (id ur : Nat) (pos : Vector3) (rot : Quaternion)
  | destroy_unit (id : Id)
  | create_camera (sg : Nat) (node : Int) (type near far : Nat)
  | destroy_camera (id : Id)
  deriving DecidableEq, Repr

/-- Perform one operation; the handle a creation returns is dropped. -/
def World.apply (w : World) : Op → Except Fatal World
  | Op.spawn_unit id ur pos rot => (w.spawn_unit id ur pos rot).map (fun r => r.2)
  | Op.destroy_unit id => w.destroy_unit id
  | Op.create_camera sg node type near far =>
    (w.create_camera sg node type near far).map (fun r => r.2)
  | Op.destroy_camera id => w.destroy_camera id

/-- Perform the operations in order, stopping at the first fatal one. -/
def World.run (w : World) : List Op → Except Fatal World
  | [] => Except.ok w
  | op :: ops =>
    match w.apply op with
    | Except.error e => Except.error e
    | Except.ok w1 => w1.run ops

/-- Spawn one unit per `(id, ur)` pair, at the given pose; the handles returned, in
order, and the world afterwards. -/
def World.spawn_units (w : World) (pos : Vector3) (rot : Quaternion) :
    List (Nat × Nat) → Except Fatal (List Id × World)
  | [] => Except.ok ([], w)
  | a :: rest =>
    match w.spawn_unit a.1 a.2 pos rot with
    | Except.error e => Except.error e
    | Except.ok (h, w1) =>
      match w1.spawn_units pos rot rest with
      | Except.error e => Except.error e
      | Except.ok (hs, w2) => Except.ok (h :: hs, w2)

/-- Destroy the units of the handles, in the order given. -/
def World.destroy_units (w : World) : List Id → Except Fatal World
  | [] => Except.ok w
  | h :: hs =>
    match w.destroy_unit h with
    | Except.error e => Except.error e
    | Except.ok w1 => w1.destroy_units hs

/-- A sample position and rotation. -/
def samplePos : Vector3 := { x := 0, y := 0, z := 0 }

/-- A sample rotation. -/
def sampleRot : Quaternion := { x := 0, y := 0, z := 0, w := 1 }

/-! ## Sample collaborators and worlds -/

/-- Sample events of one frame: a collision that begins, then a trigger event of
twelve bytes. -/
def sampleEvents : List PhysicsEvent :=
  [PhysicsEvent.collision sampleCollision,
   PhysicsEvent.trigger [1, 0, 0, 0, 7, 0, 0, 0, 9, 0, 0, 0]]

/-- Sample collaborators: the sample layout, and a physics world that appends the
sample events on every update, whatever `dt` is. -/
def sampleEnv : Env :=
  { L := sampleLayout
    unit_of := sampleUnitOf
    physics_update := fun _ events =>
      (sampleEvents.map (PhysicsEvent.record sampleLayout)).foldl
        (event_stream_write sampleLayout) events }

/-- A world of capacity four and two whose physics world holds the given event
buffer. -/
def sampleWorldWith (events : List Nat) : World :=
  { World.new 4 2 with physics_events := events }

/-- Sample records of one frame: a trigger record, a record with the unknown tag
`7`, then a collision record. -/
def sampleRecords : List Record :=
  [{ type := 1, payload := [5, 6] },
   { type := 7, payload := [1, 2, 3] },
   { type := 0, payload := sampleLayout.store_CollisionEvent sampleCollisionEnd }]

/-- The world a result holds, or the fallback world when the result is fatal. -/
def World.orElse (r : Except Fatal World) (w : World) : World :=
  match r with
  | Except.ok w1 => w1
  | Except.error _ => w

/-- A world with room for one unit and one camera, after one unit is spawned. -/
def sampleOneUnit : World :=
  World.orElse ((World.new 1 1).run [Op.spawn_unit 7 70 samplePos sampleRot]) (World.new 1 1)

/-- The same world after that unit is destroyed. -/
def sampleOneUnitDestroyed : World :=
  World.orElse (sampleOneUnit.destroy_unit { index := 0, id := 0 }) sampleOneUnit

/-- The same world after another unit is spawned, which takes the freed slot. -/
def sampleOneUnitAgain : World :=
  World.orElse (sampleOneUnitDestroyed.run [Op.spawn_unit 8 80 samplePos sampleRot])
    sampleOneUnitDestroyed

/-- A world with room for one unit and one camera, after one camera is created. -/
def sampleOneCamera : World :=
  World.orElse ((World.new 1 1).run [Op.create_camera 5 0 1 10 1000]) (World.new 1 1)

/-- The same world after that camera is destroyed. -/
def sampleOneCameraDestroyed : World :=
  World.orElse (sampleOneCamera.destroy_camera { index := 0, id := 0 }) sampleOneCamera

/-- The same world after another camera is created, which takes the freed slot. -/
def sampleOneCameraAgain : World :=
  World.orElse (sampleOneCameraDestroyed.run [Op.create_camera 6 0 1 10 1000])
    sampleOneCameraDestroyed

/-- A world with room for four units and two cameras that holds one unit and one
camera. -/
def sampleBusy : World :=
  World.orElse
    ((World.new 4 2).run
      [Op.spawn_unit 1 10 samplePos sampleRot, Op.create_camera 5 0 1 10 1000])
    (World.new 4 2)

/-- The handles of three more units spawned in the busy sample world, and the
world afterwards. -/
def sampleThreeMore : List Id × World :=
  match sampleBusy.spawn_units samplePos sampleRot [(2, 20), (3, 30), (4, 20)] with
  | Except.ok r => r
  | Except.error _ => ([], sampleBusy)

/-- The busy sample world after the three further units are spawned: units of
resources `10`, `20`, `30`, `20` at blocks `0` to `3`. -/
def sampleFourUnits : World := sampleThreeMore.2

/-! ## Invariants of a world built by its operations -/

/-- A handle table is well formed when every live handle carries a generation
token already handed out and no handle is live twice. -/
structure IdArray.WF (a : IdArray) : Prop where
  ids_lt : ∀ e ∈ a.entries, e.1.id < a.next_id
  handles_nodup : (a.entries.map (fun e => e.1)).Nodup

/-- A pool and a handle table are paired when the table is well formed, the
allocated blocks are exactly the objects of the live handles, no block is
allocated twice, and both have the same capacity. -/
structure Paired (pool : PoolAllocator) (a : IdArray) : Prop where
  wf : a.WF
  perm : pool.allocated.Perm a.objects
  nodup : pool.allocated.Nodup
  cap : a.capacity = pool.num_blocks

/-- The invariant of a world: each pool is paired with its table, and every live
unit handle points at a constructed unit. -/
structure World.Inv (w : World) : Prop where
  units : Paired w.m_unit_pool w.m_units
  cameras : Paired w.m_camera_pool w.m_cameras
  unit_objs : ∀ e ∈ w.m_units.entries, ∃ u, w.unit_heap.read e.2 = some u

/-! ## Theorems: resource registry -/

/-- On a list of rows with non-zero, pairwise different tags followed by any
further rows, the scan returns the row whose tag is asked for. -/
theorem find_callback_from_mem (rows tail : List ResourceCallback) (t : Nat)
    (h0 : 0 ∉ rows.map ResourceCallback.type)
    (hnd : (rows.map ResourceCallback.type).Nodup)
    (c : ResourceCallback) (hc : c ∈ rows) (ht : c.type = t) :
    find_callback_from (rows ++ tail) t = some c := by
  induction rows with
  | nil => cases hc
  | cons r rs ih =>
    simp only [List.map_cons, List.mem_cons, not_or, List.nodup_cons] at h0 hnd
    have hr0 : r.type ≠ 0 := fun h => h0.1 h.symm
    rcases List.mem_cons.1 hc with rfl | hmem
    · subst ht
      simp [find_callback_from, hr0]
    · have hne : r.type ≠ t := by
        intro h
        apply hnd.1
        rw [h, ← ht]
        exact List.mem_map_of_mem _ hmem
      simp only [List.cons_append, find_callback_from, bne_iff_ne, ne_eq, hr0, not_false_eq_true,
        ite_true, beq_iff_eq, hne, ite_false]
      exact ih h0.2 hnd.2 hmem

/-- On a list of rows followed by the sentinel, the scan finds nothing for the
tag `0` and for a tag no row carries. -/
theorem find_callback_from_none (rows tail : List ResourceCallback) (t : Nat)
    (h : t = 0 ∨ t ∉ rows.map ResourceCallback.type) :
    find_callback_from (rows ++ ResourceCallback.sentinel :: tail) t = none := by
  induction rows with
  | nil => simp [find_callback_from, ResourceCallback.sentinel]
  | cons r rs ih =>
    simp only [List.cons_append, find_callback_from]
    by_cases hr0 : r.type = 0
    · simp [hr0]
    · have hne : r.type ≠ t := by
        rcases h with h | h
        · rw [h]; exact hr0
        · intro e; apply h; rw [← e]; simp
      simp only [bne_iff_ne, ne_eq, hr0, not_false_eq_true, ite_true, beq_iff_eq, hne, ite_false]
      apply ih
      rcases h with h | h
      · exact Or.inl h
      · right; intro hm; apply h; simp only [List.map_cons, List.mem_cons]; exact Or.inr hm

/-- The table is its registered rows followed by the sentinel. -/
theorem registry_eq (T : ResourceTypes) :
    RESOURCE_CALLBACK_REGISTRY T = registered_rows T ++ [ResourceCallback.sentinel] := by
  simp [registered_rows, RESOURCE_CALLBACK_REGISTRY]

/-- A registered row has all four function pointers, each of its own class. -/
theorem registered_row_ptrs (T : ResourceTypes) (c : ResourceCallback)
    (hc : c ∈ registered_rows T) :
    ∃ k, c = ResourceCallback.row c.type k := by
  simp only [registered_rows, RESOURCE_CALLBACK_REGISTRY, List.dropLast, List.mem_cons,
    List.mem_singleton, List.not_mem_nil, or_false] at hc
  rcases hc with h | h | h | h | h | h | h | h | h | h | h | h <;>
    exact ⟨_, by rw [h]; rfl⟩

/-- With valid constants, the lookup of the tag of a registered row returns
that row. -/
theorem find_callback_hit (T : ResourceTypes) (hT : T.Valid) (t : Nat)
    (c : ResourceCallback) (hc : c ∈ registered_rows T) (ht : c.type = t) :
    find_callback T t = some c := by
  unfold find_callback
  rw [registry_eq]
  exact find_callback_from_mem _ _ t hT.1 hT.2 c hc ht

/-- The lookup of `0` or of a tag no registered row carries returns `NULL`. -/
theorem find_callback_miss (T : ResourceTypes) (t : Nat)
    (h : t = 0 ∨ ∀ c ∈ registered_rows T, c.type ≠ t) : find_callback T t = none := by
  unfold find_callback
  rw [registry_eq]
  apply find_callback_from_none
  rcases h with h | h
  · exact Or.inl h
  · right
    intro hm
    simp only [List.mem_map] at hm
    obtain ⟨c, hc, hct⟩ := hm
    exact h c hc hct

/-- Claim C1. With type constants that are non-zero and pairwise different,
`find_callback(t)` returns exactly the row registered for `t` when `t` is the tag
of a row before the sentinel (so the returned row carries tag `t` and its own
four functions), and returns `NULL` when `t = 0` or no row carries `t`. -/
theorem find_callback_spec (T : ResourceTypes) (hT : T.Valid) (t : Nat) :
    (∀ c ∈ registered_rows T, c.type = t → find_callback T t = some c) ∧
    ((t = 0 ∨ ∀ c ∈ registered_rows T, c.type ≠ t) → find_callback T t = none) :=
  ⟨fun c hc ht => find_callback_hit T hT t c hc ht, fun h => find_callback_miss T t h⟩

/-- Claim C1, instantiated: with the sample constants the mesh tag finds the mesh
row, and the tags `0` and `99` find nothing. -/
theorem find_callback_spec_witness :
    sampleTypes.Valid ∧
    find_callback sampleTypes 3 = some (ResourceCallback.row 3 ResourceClass.MeshResource) ∧
    find_callback sampleTypes 0 = none ∧ find_callback sampleTypes 99 = none :=
  ⟨by decide,
   (find_callback_spec sampleTypes (by decide) 3).1 _ (by decide) rfl,
   (find_callback_spec sampleTypes (by decide) 0).2 (Or.inl rfl),
   (find_callback_spec sampleTypes (by decide) 99).2 (Or.inr (by decide))⟩

/-- With valid constants, a tag is either carried by exactly the row the lookup
returns, or by no row and the lookup returns `NULL`. -/
theorem find_callback_cases (T : ResourceTypes) (hT : T.Valid) (t : Nat) :
    (∃ k, ResourceCallback.row t k ∈ registered_rows T ∧
      find_callback T t = some (ResourceCallback.row t k)) ∨
    ((∀ c ∈ registered_rows T, c.type ≠ t) ∧ find_callback T t = none) := by
  by_cases h : ∃ c ∈ registered_rows T, c.type = t
  · obtain ⟨c, hc, ht⟩ := h
    obtain ⟨k, hk⟩ := registered_row_ptrs T c hc
    left
    refine ⟨k, ?_, ?_⟩
    · rw [← ht, ← hk]; exact hc
    · rw [← ht, ← hk]; exact find_callback_hit T hT c.type c hc rfl
  · right
    have h2 : ∀ c ∈ registered_rows T, c.type ≠ t := fun c hc e => h ⟨c, hc, e⟩
    exact ⟨h2, find_callback_miss T t (Or.inr h2)⟩

/-- Claim C2. With valid type constants, each of the four dispatch functions
fails fatally exactly when no row is registered for the type; and when the row
`{ t, C::load, C::unload, C::online, C::offline }` is registered, each makes one
call, to the matching function of that row with the arguments it was given, and
`resource_on_load` returns what that call returned. -/
theorem resource_dispatch_spec (T : ResourceTypes) (hT : T.Valid) (I : ResourceImpl)
    (t allocator bundle id resource : Nat) :
    (((∃ e, resource_on_load T I t allocator bundle id = Except.error e) ↔
        ∀ c ∈ registered_rows T, c.type ≠ t) ∧
     ((∃ e, resource_on_unload T t allocator resource = Except.error e) ↔
        ∀ c ∈ registered_rows T, c.type ≠ t) ∧
     ((∃ e, resource_on_online T t resource = Except.error e) ↔
        ∀ c ∈ registered_rows T, c.type ≠ t) ∧
     ((∃ e, resource_on_offline T t resource = Except.error e) ↔
        ∀ c ∈ registered_rows T, c.type ≠ t)) ∧
    (∀ k, ResourceCallback.row t k ∈ registered_rows T →
      resource_on_load T I t allocator bundle id =
        Except.ok (I.load ⟨k, Hook.load⟩ allocator bundle id,
          [ResourceCall.on_load ⟨k, Hook.load⟩ allocator bundle id]) ∧
      resource_on_unload T t allocator resource =
        Except.ok [ResourceCall.on_unload ⟨k, Hook.unload⟩ allocator resource] ∧
      resource_on_online T t resource =
        Except.ok [ResourceCall.on_online ⟨k, Hook.online⟩ resource] ∧
      resource_on_offline T t resource =
        Except.ok [ResourceCall.on_offline ⟨k, Hook.offline⟩ resource]) := by
  constructor
  · rcases find_callback_cases T hT t with ⟨k, hk, hf⟩ | ⟨hno, hf⟩
    · have hyes : ¬ ∀ c ∈ registered_rows T, c.type ≠ t := fun h => h _ hk rfl
      simp [resource_on_load, resource_on_unload, resource_on_online, resource_on_offline, hf,
        ResourceCallback.row, hyes]
    · simpa [resource_on_load, resource_on_unload, resource_on_online, resource_on_offline, hf]
        using hno
  · intro k hk
    have hf := find_callback_hit T hT t _ hk rfl
    simp [resource_on_load, resource_on_unload, resource_on_online, resource_on_offline, hf,
      ResourceCallback.row]

/-- Claim C2, instantiated: with the sample constants, loading a unit resource
calls `UnitResource::load` once and returns its result, and the unregistered tag
`99` is fatal. -/
theorem resource_dispatch_spec_witness :
    sampleTypes.Valid ∧
    resource_on_load sampleTypes sampleImpl 5 10 20 30 =
      Except.ok (61, [ResourceCall.on_load ⟨ResourceClass.UnitResource, Hook.load⟩ 10 20 30]) ∧
    (∃ e, resource_on_load sampleTypes sampleImpl 99 10 20 30 = Except.error e) :=
  ⟨by decide,
   ((resource_dispatch_spec sampleTypes (by decide) sampleImpl 5 10 20 30 0).2
      ResourceClass.UnitResource (by decide)).1,
   ((resource_dispatch_spec sampleTypes (by decide) sampleImpl 99 10 20 30 0).1.1).2
      (by decide)⟩

/-! ## Theorems: the sample layout is lawful -/

theorem le_bytes_length (k n : Nat) : (le_bytes k n).length = k := by
  induction k generalizing n with
  | zero => rfl
  | succ k ih => simp [le_bytes, ih]

theorem le_value_le_bytes (k n : Nat) (rest : List Nat) (h : n < 256 ^ k) :
    le_value k (le_bytes k n ++ rest) = n := by
  induction k generalizing n with
  | zero => simp at h; simp [le_value, h]
  | succ k ih =>
    have h2 : n / 256 < 256 ^ k := by
      rw [Nat.div_lt_iff_lt_mul (by norm_num)]
      rw [pow_succ] at h
      exact h
    show n % 256 + 256 * le_value k (le_bytes k (n / 256) ++ rest) = n
    rw [ih _ h2]
    omega

theorem drop_le_bytes (k n : Nat) (rest : List Nat) : (le_bytes k n ++ rest).drop k = rest := by
  have h := le_bytes_length k n
  rw [List.drop_append_of_le_length (by omega)]
  rw [List.drop_of_length_le (by omega)]
  rfl

theorem load_store_Vector3 (v : Vector3) (rest : List Nat) (h : fits_Vector3 v = true) :
    load_Vector3 (store_Vector3 v ++ rest) = v := by
  simp only [fits_Vector3, Bool.and_eq_true, decide_eq_true_eq] at h
  obtain ⟨hx, hy, hz⟩ := h
  simp only [load_Vector3, store_Vector3, List.append_assoc, drop_le_bytes,
    le_value_le_bytes _ _ _ hx, le_value_le_bytes _ _ _ hy, le_value_le_bytes _ _ _ hz]

theorem drop_store_Vector3 (v : Vector3) (rest : List Nat) :
    (store_Vector3 v ++ rest).drop 12 = rest := by
  have h : (store_Vector3 v).length = 12 := by simp [store_Vector3, le_bytes_length]
  rw [List.drop_append_of_le_length (by omega)]
  rw [List.drop_of_length_le (by omega)]
  rfl

/-- The sample layout satisfies the laws of a layout. -/
theorem sampleLayout_lawful : sampleLayout.Lawful where
  sizeof_Header_pos := by decide
  store_Header_length := by intro h; simp [sampleLayout, le_bytes_length]
  load_store_Header := by
    intro h rest hf
    simp only [sampleLayout, Bool.and_eq_true, decide_eq_true_eq] at hf
    simp only [sampleLayout, List.append_assoc, drop_le_bytes, le_value_le_bytes _ _ _ hf.1,
      le_value_le_bytes _ _ _ hf.2]
  store_CollisionEvent_length := by
    intro e; simp [sampleLayout, store_Vector3, le_bytes_length]
  load_store_CollisionEvent := by
    intro e rest hf
    simp only [sampleLayout, Bool.and_eq_true, decide_eq_true_eq] at hf
    obtain ⟨h1, h2, h3, h4, h5⟩ := hf
    have h5b := load_store_Vector3 e.normal rest h5
    simp only [sampleLayout, List.append_assoc, drop_le_bytes, drop_store_Vector3,
      le_value_le_bytes _ _ _ h1, le_value_le_bytes _ _ _ h2, le_value_le_bytes _ _ _ h3,
      load_store_Vector3 _ _ h4, h5b]
  COLLISION_ne_TRIGGER := by decide

/-! ## Theorems: draining the physics event stream -/

theorem foldl_event_stream_write (L : Layout) (rs : List Record) (s : List Nat) :
    rs.foldl (event_stream_write L) s = s ++ rs.foldl (event_stream_write L) [] := by
  induction rs generalizing s with
  | nil => simp
  | cons r rs ih =>
    simp only [List.foldl_cons]
    rw [ih (event_stream_write L s r), ih (event_stream_write L [] r)]
    simp [event_stream_write, List.append_assoc]

/-- The stream of a list of records is the bytes of the first record followed by
the stream of the others. -/
theorem stream_of_cons (L : Layout) (r : Record) (rs : List Record) :
    stream_of L (r :: rs) = L.store_Header r.header ++ (r.payload ++ stream_of L rs) := by
  unfold stream_of
  rw [List.foldl_cons, foldl_event_stream_write]
  simp [event_stream_write, Record.header, List.append_assoc]

theorem stream_of_nil (L : Layout) : stream_of L [] = [] := rfl

theorem DrainResult.after_status (h : Header) (cb : Option PhysicsCallback)
    (r : DrainResult) : (DrainResult.after h cb r).status = r.status := rfl

/-- One turn of the loop on a stream that starts with a written record. -/
theorem drain_loop_record (L : Layout) (hL : L.Lawful) (unit_of : Nat → Nat) (fuel : Nat)
    (r : Record) (rest : List Nat) (hfit : L.fits_Header r.header = true) :
    drain_loop L unit_of (fuel + 1) (L.store_Header r.header ++ (r.payload ++ rest)) =
      if r.type = L.COLLISION then
        if (r.payload ++ rest).length < L.sizeof_CollisionEvent then
          DrainResult.after r.header none (DrainResult.stop DrainStatus.out_of_bounds)
        else
          DrainResult.after r.header
            (some (collision_callback L unit_of (L.load_CollisionEvent (r.payload ++ rest))))
            (drain_loop L unit_of fuel rest)
      else if r.type = L.TRIGGER then
        DrainResult.after r.header none (drain_loop L unit_of fuel rest)
      else
        DrainResult.after r.header none
          (DrainResult.stop (DrainStatus.fatal (Fatal.fatal "Unknown Physics event"))) := by
  have hlen := hL.store_Header_length r.header
  have hpos := hL.sizeof_Header_pos
  have hload := hL.load_store_Header r.header (r.payload ++ rest) hfit
  have hne : L.store_Header r.header ++ (r.payload ++ rest) ≠ [] := by
    intro h
    have := congrArg List.length h
    simp only [List.length_append, List.length_nil] at this
    omega
  have hlt : ¬ (L.store_Header r.header ++ (r.payload ++ rest)).length < L.sizeof_Header := by
    simp only [List.length_append]; omega
  have hdrop1 : (L.store_Header r.header ++ (r.payload ++ rest)).drop L.sizeof_Header =
      r.payload ++ rest := by
    rw [← hlen]; exact List.drop_left _ _
  have hsize : r.header.size = r.payload.length := rfl
  have htype : r.header.type = r.type := rfl
  have hlt2 : ¬ (L.store_Header r.header ++ (r.payload ++ rest)).length <
      L.sizeof_Header + r.header.size := by
    simp only [List.length_append, hsize]; omega
  have hdrop2 : (L.store_Header r.header ++ (r.payload ++ rest)).drop
      (L.sizeof_Header + r.header.size) = rest := by
    rw [← List.drop_drop, hdrop1, hsize]; exact List.drop_left _ _
  rw [drain_loop]
  simp only [hne, if_false, hlt, hload, hdrop1, hlt2, hdrop2, htype]

/-- Draining the stream written from a list of events that fit: the loop ends
normally, the callbacks are the expected ones of the collision events in order,
and the headers read are those written, each once, in order. -/
theorem drain_loop_events (L : Layout) (hL : L.Lawful) (unit_of : Nat → Nat)
    (es : List PhysicsEvent) (hfit : ∀ e ∈ es, e.fits L = true) (fuel : Nat)
    (hfuel : (stream_of L (es.map (PhysicsEvent.record L))).length < fuel) :
    drain_loop L unit_of fuel (stream_of L (es.map (PhysicsEvent.record L))) =
      { status := DrainStatus.drained
        callbacks := es.filterMap (PhysicsEvent.expected_callback L unit_of)
        headers := es.map (fun e => (e.record L).header) } := by
  induction es generalizing fuel with
  | nil =>
    cases fuel with
    | zero => simp at hfuel
    | succ fuel => simp [stream_of_nil, drain_loop, DrainResult.stop]
  | cons e es ih =>
    cases fuel with
    | zero => simp at hfuel
    | succ fuel =>
      have hfit_e := hfit e (List.mem_cons_self _ _)
      simp only [PhysicsEvent.fits, Bool.and_eq_true] at hfit_e
      have hfit_es : ∀ e ∈ es, e.fits L = true := fun x hx => hfit x (List.mem_cons_of_mem _ hx)
      simp only [List.map_cons, stream_of_cons, List.length_append] at hfuel ⊢
      have hfuel2 : (stream_of L (es.map (PhysicsEvent.record L))).length < fuel := by
        have h1 := hL.store_Header_length (e.record L).header
        have h2 := hL.sizeof_Header_pos
        omega
      rw [drain_loop_record L hL unit_of fuel _ _ hfit_e.1, ih hfit_es fuel hfuel2]
      cases e with
      | collision ev =>
        have hlen := hL.store_CollisionEvent_length ev
        have hload := hL.load_store_CollisionEvent ev
          (stream_of L (es.map (PhysicsEvent.record L))) hfit_e.2
        have hnlt : ¬ (L.store_CollisionEvent ev ++
            stream_of L (es.map (PhysicsEvent.record L))).length < L.sizeof_CollisionEvent := by
          simp only [List.length_append]; omega
        simp only [PhysicsEvent.record, if_true, hnlt, if_false, hload]
        simp [DrainResult.after, collision_callback, PhysicsEvent.expected_callback,
          PhysicsEvent.record]
      | trigger payload =>
        have hne : L.TRIGGER ≠ L.COLLISION := fun h => hL.COLLISION_ne_TRIGGER h.symm
        simp only [PhysicsEvent.record, hne, if_false, if_true]
        simp [DrainResult.after, PhysicsEvent.expected_callback, PhysicsEvent.record]

/-- Draining a stream of framed records ends fatally when a record carries an
unknown tag and normally otherwise. -/
theorem drain_loop_status (L : Layout) (hL : L.Lawful) (unit_of : Nat → Nat)
    (rs : List Record) (hfr : ∀ r ∈ rs, r.framed L = true) (fuel : Nat)
    (hfuel : (stream_of L rs).length < fuel) :
    (drain_loop L unit_of fuel (stream_of L rs)).status =
      if rs.any (Record.unknown L) then DrainStatus.fatal (Fatal.fatal "Unknown Physics event")
      else DrainStatus.drained := by
  induction rs generalizing fuel with
  | nil =>
    cases fuel with
    | zero => simp at hfuel
    | succ fuel => simp [stream_of_nil, drain_loop, DrainResult.stop]
  | cons r rs ih =>
    cases fuel with
    | zero => simp at hfuel
    | succ fuel =>
      have hfr_r := hfr r (List.mem_cons_self _ _)
      simp only [Record.framed, Bool.and_eq_true] at hfr_r
      have hfr_rs : ∀ r ∈ rs, r.framed L = true := fun x hx => hfr x (List.mem_cons_of_mem _ hx)
      simp only [stream_of_cons, List.length_append] at hfuel ⊢
      have hfuel2 : (stream_of L rs).length < fuel := by
        have h1 := hL.store_Header_length r.header
        have h2 := hL.sizeof_Header_pos
        omega
      rw [drain_loop_record L hL unit_of fuel _ _ hfr_r.1]
      by_cases hc : r.type = L.COLLISION
      · have hlen : L.sizeof_CollisionEvent ≤ r.payload.length := by
          have := hfr_r.2; simpa [hc] using this
        have hnlt : ¬ (r.payload ++ stream_of L rs).length < L.sizeof_CollisionEvent := by
          simp only [List.length_append]; omega
        rw [if_pos hc, if_neg hnlt, DrainResult.after_status, ih hfr_rs fuel hfuel2]
        simp [Record.unknown, hc]
      · by_cases ht : r.type = L.TRIGGER
        · rw [if_neg hc, if_pos ht, DrainResult.after_status, ih hfr_rs fuel hfuel2]
          simp [Record.unknown, ht]
        · rw [if_neg hc, if_neg ht, DrainResult.after_status]
          simp [Record.unknown, hc, ht, DrainResult.stop]

/-! ## Theorems: World::process_physics_events and World::update -/

/-- The body of the drain, unfolded: the loop runs on the whole buffer with a budget
of one turn more than the buffer has bytes. -/
theorem drain_events_eq (L : Layout) (unit_of : Nat → Nat) (events : List Nat) :
    drain_events L unit_of events =
      (if (drain_loop L unit_of (events.length + 1) events).status = DrainStatus.drained
        then [] else events,
       drain_loop L unit_of (events.length + 1) events) := rfl

/-- The drain of a stream written from collision and trigger events: a normal
end, one callback per collision event, every header read once, an empty buffer
afterwards. -/
theorem process_physics_events_written (E : Env) (hL : E.L.Lawful) (w : World)
    (es : List PhysicsEvent) (hfit : ∀ e ∈ es, e.fits E.L = true)
    (hev : w.physics_events = stream_of E.L (es.map (PhysicsEvent.record E.L))) :
    (w.process_physics_events E).2 =
      { status := DrainStatus.drained
        callbacks := es.filterMap (PhysicsEvent.expected_callback E.L E.unit_of)
        headers := es.map (fun e => (e.record E.L).header) } ∧
    (w.process_physics_events E).1 = { w with physics_events := [] } := by
  have h := drain_loop_events E.L hL E.unit_of es hfit (w.physics_events.length + 1)
    (by rw [hev]; exact Nat.lt_succ_self _)
  rw [← hev] at h
  simp only [World.process_physics_events, drain_events_eq, h]
  simp

/-- Claim C3. On the stream written from any list of collision and trigger
events, `process_physics_events` ends normally, reads the header of every record
once and in order, calls the physics callback once per collision event, in the
order written, with the recorded actors, their units, point, normal, and the
phase `"begin"` for `BEGIN_TOUCH` and `"end"` otherwise, makes no call for a
trigger event, and leaves the stream empty. -/
theorem process_physics_events_spec (E : Env) (hL : E.L.Lawful) (w : World)
    (es : List PhysicsEvent) (hfit : ∀ e ∈ es, e.fits E.L = true)
    (hev : w.physics_events = stream_of E.L (es.map (PhysicsEvent.record E.L))) :
    (w.process_physics_events E).2 =
      { status := DrainStatus.drained
        callbacks := es.filterMap (PhysicsEvent.expected_callback E.L E.unit_of)
        headers := es.map (fun e => (e.record E.L).header) } ∧
    (w.process_physics_events E).1 = { w with physics_events := [] } :=
  process_physics_events_written E hL w es hfit hev

/-- Claim C3, instantiated: a collision record followed by a trigger record gives
exactly one callback, with the recorded values, and an empty stream. -/
theorem process_physics_events_spec_witness :
    ((sampleWorldWith (stream_of sampleLayout
        (sampleEvents.map (PhysicsEvent.record sampleLayout)))).process_physics_events
          sampleEnv).2.callbacks =
      [{ actor0 := 100, actor1 := 200, unit0 := 1100, unit1 := 1200
         where_ := { x := 1, y := 2, z := 3 }, normal := { x := 4, y := 5, z := 6 }
         phase := "begin" }] ∧
    ((sampleWorldWith (stream_of sampleLayout
        (sampleEvents.map (PhysicsEvent.record sampleLayout)))).process_physics_events
          sampleEnv).1.physics_events = [] := by
  have h := process_physics_events_spec sampleEnv sampleLayout_lawful
    (sampleWorldWith (stream_of sampleLayout (sampleEvents.map (PhysicsEvent.record sampleLayout))))
    sampleEvents (by decide) rfl
  rw [h.1, h.2]
  exact ⟨by decide, rfl⟩

/-- Claim C9. On a stream of framed records, `process_physics_events` fails fatally
if and only if some record carries a tag that is neither `COLLISION` nor
`TRIGGER`; then the run is not reported as drained and the buffer is not cleared;
and with no such record the run ends normally. -/
theorem process_physics_events_fatal_iff (E : Env) (hL : E.L.Lawful) (w : World)
    (rs : List Record) (hfr : ∀ r ∈ rs, r.framed E.L = true)
    (hev : w.physics_events = stream_of E.L rs) :
    ((∃ f, (w.process_physics_events E).2.status = DrainStatus.fatal f) ↔
      ∃ r ∈ rs, r.unknown E.L = true) ∧
    ((∃ r ∈ rs, r.unknown E.L = true) →
      (w.process_physics_events E).2.status ≠ DrainStatus.drained ∧
      (w.process_physics_events E).1.physics_events = w.physics_events) ∧
    ((∀ r ∈ rs, r.unknown E.L = false) →
      (w.process_physics_events E).2.status = DrainStatus.drained) := by
  have h := drain_loop_status E.L hL E.unit_of rs hfr (w.physics_events.length + 1)
    (by rw [hev]; exact Nat.lt_succ_self _)
  rw [← hev] at h
  by_cases hany : rs.any (Record.unknown E.L) = true
  · have hex : ∃ r ∈ rs, r.unknown E.L = true := by simpa using hany
    rw [if_pos hany] at h
    refine ⟨⟨fun _ => hex, fun _ => ⟨Fatal.fatal "Unknown Physics event", ?_⟩⟩,
      fun _ => ⟨?_, ?_⟩, fun hall => ?_⟩
    · simpa [World.process_physics_events, drain_events_eq] using h
    · simp [World.process_physics_events, drain_events_eq, h]
    · simp [World.process_physics_events, drain_events_eq, h]
    · obtain ⟨r, hr, hu⟩ := hex
      rw [hall r hr] at hu
      cases hu
  · have hnex : ¬ ∃ r ∈ rs, r.unknown E.L = true := by simpa using hany
    rw [if_neg hany] at h
    have hst : (w.process_physics_events E).2.status = DrainStatus.drained := by
      simpa [World.process_physics_events, drain_events_eq] using h
    refine ⟨⟨fun hf => ?_, fun hex => absurd hex hnex⟩, fun hex => absurd hex hnex, fun _ => hst⟩
    obtain ⟨f, hf⟩ := hf
    rw [hst] at hf
    cases hf

/-- Claim C9, instantiated: a stream whose second record has the unknown tag `7`
is fatal and its buffer is kept; a stream of a trigger record alone is drained. -/
theorem process_physics_events_fatal_iff_witness :
    (∃ f, ((sampleWorldWith (stream_of sampleLayout sampleRecords)).process_physics_events
      sampleEnv).2.status = DrainStatus.fatal f) ∧
    ((sampleWorldWith (stream_of sampleLayout [{ type := 1, payload := [5, 6] }])
      ).process_physics_events sampleEnv).2.status = DrainStatus.drained :=
  ⟨((process_physics_events_fatal_iff sampleEnv sampleLayout_lawful
      (sampleWorldWith (stream_of sampleLayout sampleRecords)) sampleRecords
      (by decide) rfl).1).2 ⟨{ type := 7, payload := [1, 2, 3] }, by decide, by decide⟩,
   (process_physics_events_fatal_iff sampleEnv sampleLayout_lawful
      (sampleWorldWith (stream_of sampleLayout [{ type := 1, payload := [5, 6] }]))
      [{ type := 1, payload := [5, 6] }] (by decide) rfl).2.2 (by decide)⟩

/-- Claim C10. For every `dt`, `update(dt)` calls the physics update with `dt`, the
scene-graph update and the sound update, once each and in this order, and then
drains the event buffer the physics update left: every scripting callback comes
after those three calls, and the buffer is empty when the drain ends normally.
When the physics update leaves a stream written from collision and trigger
events, the drain ends normally and the callbacks are those of the collision
events. -/
theorem update_spec (E : Env) (w : World) (dt : Nat) :
    (w.update E dt).2.1 =
      [Effect.physics_update dt, Effect.scenegraph_update, Effect.sound_update] ++
        (World.process_physics_events E
          { w with physics_events := E.physics_update dt w.physics_events }).2.callbacks.map
            Effect.physics_callback ∧
    ((w.update E dt).2.2 = DrainStatus.drained → (w.update E dt).1.physics_events = []) ∧
    (E.L.Lawful → ∀ es : List PhysicsEvent, (∀ e ∈ es, e.fits E.L = true) →
      E.physics_update dt w.physics_events = stream_of E.L (es.map (PhysicsEvent.record E.L)) →
      (w.update E dt).2.2 = DrainStatus.drained ∧
      (w.update E dt).1.physics_events = [] ∧
      (w.update E dt).2.1 =
        [Effect.physics_update dt, Effect.scenegraph_update, Effect.sound_update] ++
          (es.filterMap (PhysicsEvent.expected_callback E.L E.unit_of)).map
            Effect.physics_callback) := by
  refine ⟨rfl, ?_, ?_⟩
  · intro h
    simp only [World.update, World.process_physics_events, drain_events_eq] at h ⊢
    simp [h]
  · intro hL es hfit hev
    have h := process_physics_events_written E hL
      { w with physics_events := E.physics_update dt w.physics_events } es hfit hev
    simp only [World.update, h.1, h.2]
    simp

/-- Claim C10, instantiated at `dt = 0`: the three updates, then the one callback
of the frame's collision, and an empty buffer. -/
theorem update_spec_witness :
    ((sampleWorldWith []).update sampleEnv 0).2.2 = DrainStatus.drained ∧
    ((sampleWorldWith []).update sampleEnv 0).1.physics_events = [] ∧
    ((sampleWorldWith []).update sampleEnv 0).2.1 =
      [Effect.physics_update 0, Effect.scenegraph_update, Effect.sound_update,
       Effect.physics_callback
        { actor0 := 100, actor1 := 200, unit0 := 1100, unit1 := 1200
          where_ := { x := 1, y := 2, z := 3 }, normal := { x := 4, y := 5, z := 6 }
          phase := "begin" }] := by
  have h := (update_spec sampleEnv (sampleWorldWith []) 0).2.2 sampleLayout_lawful
    sampleEvents (by decide) rfl
  rw [h.1, h.2.1, h.2.2]
  exact ⟨rfl, rfl, by decide⟩

/-! ## Theorems: handle table and pool -/

theorem IdArray.has_iff (a : IdArray) (h : Id) :
    a.has h = true ↔ ∃ p, (h, p) ∈ a.entries := by
  simp only [IdArray.has, List.any_eq_true, Bool.and_eq_true, beq_iff_eq]
  constructor
  · rintro ⟨⟨h2, p⟩, hm, hi, hg⟩
    have : h2 = h := by
      cases h2; cases h; simp only [Id.mk.injEq]; exact ⟨hi, hg⟩
    subst this
    exact ⟨p, hm⟩
  · rintro ⟨p, hm⟩
    exact ⟨(h, p), hm, rfl, rfl⟩

theorem IdArray.has_eq_false_iff (a : IdArray) (h : Id) :
    a.has h = false ↔ ∀ p, (h, p) ∉ a.entries := by
  rw [← Bool.not_eq_true, IdArray.has_iff]
  simp

theorem find_handle_of_nodup (l : List (Id × Nat)) (h : Id) (p : Nat)
    (hnd : (l.map (fun e => e.1)).Nodup) (hm : (h, p) ∈ l) :
    l.find? (fun e => e.1 == h) = some (h, p) := by
  induction l with
  | nil => cases hm
  | cons e l ih =>
    simp only [List.map_cons, List.nodup_cons] at hnd
    rcases List.mem_cons.1 hm with heq | hmem
    · subst heq
      simp [List.find?]
    · have hne : e.1 ≠ h := by
        intro he
        apply hnd.1
        rw [he]
        exact List.mem_map_of_mem (fun e => e.1) hmem
      have hb : (e.1 == h) = false := by simpa using hne
      rw [List.find?_cons, hb]
      exact ih hnd.2 hmem

theorem IdArray.lookup_of_mem (a : IdArray) (hwf : a.WF) (h : Id) (p : Nat)
    (hm : (h, p) ∈ a.entries) : a.lookup h = Except.ok p := by
  simp [IdArray.lookup, find_handle_of_nodup a.entries h p hwf.handles_nodup hm]

theorem IdArray.mem_of_lookup (a : IdArray) (h : Id) (p : Nat)
    (hl : a.lookup h = Except.ok p) : (h, p) ∈ a.entries := by
  unfold IdArray.lookup at hl
  split at hl
  · rename_i e he
    have h1 := List.find?_some he
    have h2 := List.mem_of_find?_eq_some he
    simp only [beq_iff_eq] at h1
    cases hl
    rw [← h1]
    exact h2
  · cases hl

theorem IdArray.lookup_of_has (a : IdArray) (h : Id) (hh : a.has h = true) :
    ∃ p, a.lookup h = Except.ok p ∧ (h, p) ∈ a.entries := by
  obtain ⟨p, hm⟩ := (IdArray.has_iff a h).1 hh
  unfold IdArray.lookup
  cases hf : a.entries.find? (fun e => e.1 == h) with
  | none =>
    rw [List.find?_eq_none] at hf
    exact absurd (by simp) (hf (h, p) hm)
  | some e =>
    refine ⟨e.2, rfl, ?_⟩
    have h1 := List.find?_some hf
    have h2 := List.mem_of_find?_eq_some hf
    simp only [beq_iff_eq] at h1
    rw [← h1]
    exact h2

theorem IdArray.has_destroy_self (a : IdArray) (h : Id) : (a.destroy h).has h = false := by
  rw [IdArray.has_eq_false_iff]
  intro p hm
  simp [IdArray.destroy, List.mem_filter] at hm

theorem IdArray.has_destroy_of_false (a : IdArray) (h g : Id) (hh : a.has h = false) :
    (a.destroy g).has h = false := by
  rw [IdArray.has_eq_false_iff] at hh ⊢
  intro p hm
  simp only [IdArray.destroy, List.mem_filter] at hm
  exact hh p hm.1

theorem IdArray.has_destroy_of_ne (a : IdArray) (h g : Id) (hne : h ≠ g)
    (hh : a.has h = true) : (a.destroy g).has h = true := by
  rw [IdArray.has_iff] at hh ⊢
  obtain ⟨p, hm⟩ := hh
  refine ⟨p, ?_⟩
  simp only [IdArray.destroy, List.mem_filter]
  exact ⟨hm, by simpa using hne⟩

theorem IdArray.create_eq (a : IdArray) (object : Nat) (h : Id) (a2 : IdArray)
    (hc : a.create object = Except.ok (h, a2)) :
    h.id = a.next_id ∧ a2.next_id = a.next_id + 1 ∧ a2.entries = a.entries ++ [(h, object)] ∧
      a2.capacity = a.capacity ∧ a.free_slot = some h.index := by
  unfold IdArray.create at hc
  split at hc
  · cases hc
  · rename_i slot hs
    simp only [Except.ok.injEq, Prod.mk.injEq] at hc
    obtain ⟨h1, h2⟩ := hc
    subst h1; subst h2
    exact ⟨rfl, rfl, rfl, rfl, hs⟩

theorem IdArray.has_create_of_false (a : IdArray) (object : Nat) (h g : Id) (a2 : IdArray)
    (hc : a.create object = Except.ok (g, a2)) (hh : a.has h = false) (hlt : h.id < a.next_id) :
    a2.has h = false ∧ h.id < a2.next_id := by
  obtain ⟨hid, hnext, hent, _, _⟩ := IdArray.create_eq a object g a2 hc
  refine ⟨?_, by omega⟩
  rw [IdArray.has_eq_false_iff] at hh ⊢
  intro p hm
  rw [hent, List.mem_append] at hm
  rcases hm with hm | hm
  · exact hh p hm
  · simp only [List.mem_singleton, Prod.mk.injEq] at hm
    rw [hm.1] at hlt
    omega

theorem IdArray.has_create_of_true (a : IdArray) (object : Nat) (h g : Id) (a2 : IdArray)
    (hc : a.create object = Except.ok (g, a2)) (hh : a.has h = true) : a2.has h = true := by
  obtain ⟨_, _, hent, _, _⟩ := IdArray.create_eq a object g a2 hc
  rw [IdArray.has_iff] at hh ⊢
  obtain ⟨p, hm⟩ := hh
  exact ⟨p, by rw [hent]; exact List.mem_append_left _ hm⟩

theorem IdArray.WF_empty (n : Nat) : (IdArray.empty n).WF :=
  ⟨by simp [IdArray.empty], by simp [IdArray.empty]⟩

theorem IdArray.WF_create (a : IdArray) (hwf : a.WF) (object : Nat) (h : Id) (a2 : IdArray)
    (hc : a.create object = Except.ok (h, a2)) : a2.WF := by
  obtain ⟨hid, hnext, hent, _, _⟩ := IdArray.create_eq a object h a2 hc
  constructor
  · intro e he
    rw [hent, List.mem_append] at he
    rcases he with he | he
    · have := hwf.ids_lt e he; omega
    · simp only [List.mem_singleton] at he
      rw [he, hnext]; simp only; omega
  · rw [hent, List.map_append, List.nodup_append]
    refine ⟨hwf.handles_nodup, by simp, ?_⟩
    intro x hx1 hx2
    simp only [List.map_cons, List.map_nil, List.mem_singleton] at hx2
    subst hx2
    simp only [List.mem_map] at hx1
    obtain ⟨e, he, hex⟩ := hx1
    have := hwf.ids_lt e he
    rw [hex] at this
    omega

theorem IdArray.WF_destroy (a : IdArray) (hwf : a.WF) (h : Id) : (a.destroy h).WF := by
  constructor
  · intro e he
    simp only [IdArray.destroy, List.mem_filter] at he
    exact hwf.ids_lt e he.1
  · simp only [IdArray.destroy]
    exact (hwf.handles_nodup.sublist (List.Sublist.map _ (List.filter_sublist _)))

/-- After a creation in a well-formed table the new handle is live and its
lookup gives the object it was created for. -/
theorem IdArray.lookup_create (a : IdArray) (hwf : a.WF) (object : Nat) (h : Id) (a2 : IdArray)
    (hc : a.create object = Except.ok (h, a2)) :
    a2.has h = true ∧ a2.lookup h = Except.ok object := by
  have hwf2 := IdArray.WF_create a hwf object h a2 hc
  obtain ⟨_, _, hent, _, _⟩ := IdArray.create_eq a object h a2 hc
  have hm : (h, object) ∈ a2.entries := by rw [hent]; simp
  exact ⟨(IdArray.has_iff a2 h).2 ⟨object, hm⟩, IdArray.lookup_of_mem a2 hwf2 h object hm⟩

theorem range_find_none_length (n : Nat) (l : List Nat) (p : Nat → Bool)
    (hp : ∀ i, p i = false → i ∈ l) (hf : (List.range n).find? p = none) : n ≤ l.length := by
  rw [List.find?_eq_none] at hf
  have hsub : List.range n ⊆ l := by
    intro i hi
    apply hp
    simpa using hf i hi
  have := (List.subperm_of_subset (List.nodup_range n) hsub).length_le
  simpa using this

theorem PoolAllocator.allocate_eq (p : PoolAllocator) (b : Nat) (p2 : PoolAllocator)
    (ha : p.allocate = Except.ok (b, p2)) :
    b ∉ p.allocated ∧ b < p.num_blocks ∧ p2.allocated = b :: p.allocated ∧
      p2.num_blocks = p.num_blocks := by
  unfold PoolAllocator.allocate at ha
  split at ha
  · cases ha
  · rename_i blk hb
    simp only [Except.ok.injEq, Prod.mk.injEq] at ha
    obtain ⟨h1, h2⟩ := ha
    subst h1; subst h2
    unfold PoolAllocator.free_block at hb
    have h3 := List.find?_some hb
    have h4 := List.mem_of_find?_eq_some hb
    have h5 : blk ∉ p.allocated := by simpa using h3
    exact ⟨h5, by simpa using h4, rfl, rfl⟩

theorem PoolAllocator.allocate_ok (p : PoolAllocator) (hlt : p.allocated.length < p.num_blocks) :
    ∃ b p2, p.allocate = Except.ok (b, p2) := by
  unfold PoolAllocator.allocate
  cases hf : p.free_block with
  | none =>
    exfalso
    have := range_find_none_length p.num_blocks p.allocated _ (fun i hi => by simpa using hi) hf
    omega
  | some b => exact ⟨b, _, rfl⟩

theorem IdArray.create_ok (a : IdArray) (object : Nat) (hlt : a.entries.length < a.capacity) :
    ∃ h a2, a.create object = Except.ok (h, a2) := by
  unfold IdArray.create
  cases hf : a.free_slot with
  | none =>
    exfalso
    have := range_find_none_length a.capacity (a.entries.map (fun e => e.1.index)) _
      (fun i hi => by
        simp only [Bool.not_eq_false', List.any_eq_true, beq_iff_eq] at hi
        obtain ⟨e, he, hei⟩ := hi
        exact List.mem_map.2 ⟨e, he, hei⟩) hf
    simp only [List.length_map] at this
    omega
  | some s => exact ⟨_, _, rfl⟩

theorem filter_handle_objects (l : List (Id × Nat)) (h : Id) (p : Nat)
    (hnd : (l.map (fun e => e.1)).Nodup) (hm : (h, p) ∈ l) :
    ((l.filter (fun e => e.1 != h)).map (fun e => e.2)).Perm ((l.map (fun e => e.2)).erase p) := by
  induction l with
  | nil => cases hm
  | cons e l ih =>
    simp only [List.map_cons, List.nodup_cons] at hnd
    by_cases he : e.1 = h
    · have hno : ∀ x ∈ l, x.1 ≠ h := by
        intro x hx hxh
        apply hnd.1
        rw [he, ← hxh]
        exact List.mem_map_of_mem (fun e => e.1) hx
      have hep : e = (h, p) := by
        rcases List.mem_cons.1 hm with heq | hmem
        · exact heq.symm
        · exact absurd rfl (hno _ hmem)
      have hfil : l.filter (fun e => e.1 != h) = l := by
        rw [List.filter_eq_self]
        intro x hx
        simpa using hno x hx
      subst hep
      simp [List.filter_cons, hfil]
    · have hmem : (h, p) ∈ l := by
        rcases List.mem_cons.1 hm with heq | hmem
        · rw [← heq] at he; exact absurd rfl he
        · exact hmem
      have hb : (e.1 != h) = true := by simpa using he
      rw [List.filter_cons, if_pos hb]
      simp only [List.map_cons]
      have ih2 := ih hnd.2 hmem
      by_cases hp : e.2 = p
      · have hpm : p ∈ l.map (fun e => e.2) := List.mem_map.2 ⟨(h, p), hmem, rfl⟩
        rw [hp, List.erase_cons_head]
        exact (List.Perm.cons p ih2).trans (List.perm_cons_erase hpm).symm
      · rw [List.erase_cons_tail (by simpa using hp)]
        exact List.Perm.cons _ ih2

theorem IdArray.size_destroy (a : IdArray) (hwf : a.WF) (h : Id) (p : Nat)
    (hm : (h, p) ∈ a.entries) : (a.destroy h).size + 1 = a.size := by
  have hperm := (filter_handle_objects a.entries h p hwf.handles_nodup hm).length_eq
  have hpm : p ∈ a.entries.map (fun e => e.2) := List.mem_map.2 ⟨(h, p), hm, rfl⟩
  rw [List.length_erase_of_mem hpm] at hperm
  simp only [List.length_map] at hperm
  have hpos : 0 < a.entries.length := List.length_pos_of_mem hm
  simp only [IdArray.size, IdArray.destroy]
  omega

theorem Paired_empty (n : Nat) : Paired (PoolAllocator.empty n) (IdArray.empty n) :=
  ⟨IdArray.WF_empty n, by simp [PoolAllocator.empty, IdArray.empty, IdArray.objects],
    by simp [PoolAllocator.empty], rfl⟩

theorem Paired_create (pool : PoolAllocator) (a : IdArray) (hp : Paired pool a)
    (b : Nat) (pool2 : PoolAllocator) (ha : pool.allocate = Except.ok (b, pool2))
    (h : Id) (a2 : IdArray) (hc : a.create b = Except.ok (h, a2)) : Paired pool2 a2 := by
  obtain ⟨hb, _, hal, hnb⟩ := PoolAllocator.allocate_eq pool b pool2 ha
  obtain ⟨_, _, hent, hcap, _⟩ := IdArray.create_eq a b h a2 hc
  refine ⟨IdArray.WF_create a hp.wf b h a2 hc, ?_, ?_, ?_⟩
  · rw [hal]
    simp only [IdArray.objects, hent, List.map_append, List.map_cons, List.map_nil]
    exact (List.Perm.cons b hp.perm).trans (List.perm_append_singleton b _).symm
  · rw [hal]
    exact List.nodup_cons.2 ⟨hb, hp.nodup⟩
  · rw [hcap, hnb]; exact hp.cap

theorem Paired_destroy (pool : PoolAllocator) (a : IdArray) (hp : Paired pool a)
    (h : Id) (p : Nat) (hm : (h, p) ∈ a.entries) :
    Paired (pool.deallocate p) (a.destroy h) := by
  refine ⟨IdArray.WF_destroy a hp.wf h, ?_, ?_, hp.cap⟩
  · simp only [PoolAllocator.deallocate, IdArray.objects, IdArray.destroy]
    exact (hp.perm.erase p).trans
      (filter_handle_objects a.entries h p hp.wf.handles_nodup hm).symm
  · simp only [PoolAllocator.deallocate]
    exact hp.nodup.erase p

theorem Paired.count_eq {pool : PoolAllocator} {a : IdArray} (hp : Paired pool a) :
    pool.num_allocated = a.size := by
  have := hp.perm.length_eq
  simpa [PoolAllocator.num_allocated, IdArray.size, IdArray.objects] using this

theorem Paired.objects_nodup {pool : PoolAllocator} {a : IdArray} (hp : Paired pool a) :
    a.objects.Nodup :=
  (hp.perm.nodup_iff).1 hp.nodup

/-! ## Theorems: objects in pool memory -/

theorem Heap.read_write_same {α : Type} (h : Heap α) (p : Nat) (v : α) :
    (h.write p v).read p = some v := by
  simp [Heap.write, Heap.read, List.find?]

theorem Heap.read_filter_other {α : Type} (h : Heap α) (p q : Nat) (hne : q ≠ p) :
    Heap.read (h.filter (fun e => e.1 != p)) q = Heap.read h q := by
  induction h with
  | nil => rfl
  | cons e h ih =>
    simp only [Heap.read] at ih ⊢
    by_cases hep : e.1 = p
    · have hb : (e.1 != p) = false := by simpa using hep
      have hq : (e.1 == q) = false := by
        have : e.1 ≠ q := fun h2 => hne (h2.symm.trans hep)
        simpa using this
      rw [List.filter_cons, hb]
      simp only [Bool.false_eq_true, if_false, List.find?_cons, hq]
      exact ih
    · have hb : (e.1 != p) = true := by simpa using hep
      rw [List.filter_cons, hb]
      simp only [if_true, List.find?_cons]
      cases hq : (e.1 == q) with
      | true => rfl
      | false => exact ih

theorem Heap.read_write_other {α : Type} (h : Heap α) (p q : Nat) (v : α) (hne : q ≠ p) :
    (h.write p v).read q = h.read q := by
  have hb : (p == q) = false := by simpa using (Ne.symm hne)
  have := Heap.read_filter_other h p q hne
  simp only [Heap.read] at this
  simp only [Heap.write, Heap.read, List.find?_cons, hb]
  exact this

theorem Heap.read_free_other {α : Type} (h : Heap α) (p q : Nat) (hne : q ≠ p) :
    (h.free p).read q = h.read q :=
  Heap.read_filter_other h p q hne

/-! ## Theorems: the operations keep the invariant -/

theorem World.spawn_unit_eq (w : World) (id ur : Nat) (pos : Vector3) (rot : Quaternion)
    (h : Id) (w1 : World) (hs : w.spawn_unit id ur pos rot = Except.ok (h, w1)) :
    ∃ u pool units, w.m_unit_pool.allocate = Except.ok (u, pool) ∧
      w.m_units.create u = Except.ok (h, units) ∧
      w1 = { w with
        m_unit_pool := pool
        m_units := units
        unit_heap := w.unit_heap.write u
          { m_id := h, m_resource_id := id, m_resource := ur, rot := rot, pos := pos } } := by
  unfold World.spawn_unit at hs
  split at hs
  · cases hs
  · rename_i u pool ha
    split at hs
    · cases hs
    · rename_i unit_id units hc
      simp only [Except.ok.injEq, Prod.mk.injEq] at hs
      obtain ⟨h1, h2⟩ := hs
      subst h1
      exact ⟨u, pool, units, ha, hc, h2.symm⟩

theorem World.create_camera_eq (w : World) (sg : Nat) (node : Int) (type near far : Nat)
    (h : Id) (w1 : World) (hs : w.create_camera sg node type near far = Except.ok (h, w1)) :
    ∃ c pool cameras, w.m_camera_pool.allocate = Except.ok (c, pool) ∧
      w.m_cameras.create c = Except.ok (h, cameras) ∧
      w1 = { w with
        m_camera_pool := pool
        m_cameras := cameras
        camera_heap := w.camera_heap.write c
          { sg := sg, node := node, type := type, near := near, far := far } } := by
  unfold World.create_camera at hs
  split at hs
  · cases hs
  · rename_i c pool ha
    split at hs
    · cases hs
    · rename_i camera_id cameras hc
      simp only [Except.ok.injEq, Prod.mk.injEq] at hs
      obtain ⟨h1, h2⟩ := hs
      subst h1
      exact ⟨c, pool, cameras, ha, hc, h2.symm⟩

theorem World.destroy_unit_eq (w : World) (h : Id) (w2 : World)
    (hd : w.destroy_unit h = Except.ok w2) :
    ∃ u, (h, u) ∈ w.m_units.entries ∧ w.m_units.lookup h = Except.ok u ∧
      w2 = { w with
        m_unit_pool := w.m_unit_pool.deallocate u
        unit_heap := w.unit_heap.free u
        m_units := w.m_units.destroy h } := by
  unfold World.destroy_unit at hd
  split at hd
  · split at hd
    · cases hd
    · rename_i u hl
      simp only [Except.ok.injEq] at hd
      exact ⟨u, IdArray.mem_of_lookup _ h u hl, hl, hd.symm⟩
  · cases hd

theorem World.destroy_camera_eq (w : World) (h : Id) (w2 : World)
    (hd : w.destroy_camera h = Except.ok w2) :
    ∃ c, (h, c) ∈ w.m_cameras.entries ∧ w.m_cameras.lookup h = Except.ok c ∧
      w2 = { w with
        m_camera_pool := w.m_camera_pool.deallocate c
        camera_heap := w.camera_heap.free c
        m_cameras := w.m_cameras.destroy h } := by
  unfold World.destroy_camera at hd
  split at hd
  · split at hd
    · cases hd
    · rename_i c hl
      simp only [Except.ok.injEq] at hd
      exact ⟨c, IdArray.mem_of_lookup _ h c hl, hl, hd.symm⟩
  · cases hd

theorem World.destroy_unit_ok (w : World) (h : Id) (hh : w.m_units.has h = true) :
    ∃ w2, w.destroy_unit h = Except.ok w2 := by
  obtain ⟨p, hl, _⟩ := IdArray.lookup_of_has w.m_units h hh
  simp [World.destroy_unit, hh, hl]

theorem World.destroy_unit_dead (w : World) (h : Id) (hh : w.m_units.has h = false) :
    w.destroy_unit h = Except.error (Fatal.assert "Unit does not exist") ∧
    w.lookup_unit h = Except.error (Fatal.assert "Unit does not exist") := by
  simp [World.destroy_unit, World.lookup_unit, hh]

theorem World.destroy_camera_dead (w : World) (h : Id) (hh : w.m_cameras.has h = false) :
    w.destroy_camera h = Except.error (Fatal.assert "Camera does not exist") ∧
    w.lookup_camera h = Except.error (Fatal.assert "Camera does not exist") := by
  simp [World.destroy_camera, World.lookup_camera, hh]

theorem World.Inv_new (cu cc : Nat) : (World.new cu cc).Inv :=
  ⟨Paired_empty cu, Paired_empty cc, by simp [World.new, IdArray.empty]⟩

theorem World.Inv_spawn_unit (w : World) (hi : w.Inv) (id ur : Nat) (pos : Vector3)
    (rot : Quaternion) (h : Id) (w1 : World)
    (hs : w.spawn_unit id ur pos rot = Except.ok (h, w1)) : w1.Inv := by
  obtain ⟨u, pool, units, ha, hc, rfl⟩ := World.spawn_unit_eq w id ur pos rot h w1 hs
  refine ⟨Paired_create _ _ hi.units u pool ha h units hc, hi.cameras, ?_⟩
  obtain ⟨hu, _, _, _⟩ := PoolAllocator.allocate_eq _ u pool ha
  obtain ⟨_, _, hent, _, _⟩ := IdArray.create_eq _ u h units hc
  intro e he
  simp only [hent, List.mem_append, List.mem_singleton] at he
  rcases he with he | he
  · have hne : e.2 ≠ u := by
      intro heq
      apply hu
      rw [hi.units.perm.mem_iff, ← heq]
      exact List.mem_map.2 ⟨e, he, rfl⟩
    simp only [Heap.read_write_other _ _ _ _ hne]
    exact hi.unit_objs e he
  · subst he
    exact ⟨_, Heap.read_write_same _ _ _⟩

theorem World.Inv_destroy_unit (w : World) (hi : w.Inv) (h : Id) (w2 : World)
    (hd : w.destroy_unit h = Except.ok w2) : w2.Inv := by
  obtain ⟨u, hm, _, rfl⟩ := World.destroy_unit_eq w h w2 hd
  refine ⟨Paired_destroy _ _ hi.units h u hm, hi.cameras, ?_⟩
  intro e he
  simp only [IdArray.destroy, List.mem_filter, bne_iff_ne, ne_eq] at he
  have hne : e.2 ≠ u := by
    intro heq
    have hnd := hi.units.objects_nodup
    have h1 : e = (h, u) := by
      have hinj := List.inj_on_of_nodup_map hnd he.1 hm
      exact hinj heq
    exact he.2 (by rw [h1])
  simp only [Heap.read_free_other _ _ _ hne]
  exact hi.unit_objs e he.1

theorem World.Inv_create_camera (w : World) (hi : w.Inv) (sg : Nat) (node : Int)
    (type near far : Nat) (h : Id) (w1 : World)
    (hs : w.create_camera sg node type near far = Except.ok (h, w1)) : w1.Inv := by
  obtain ⟨c, pool, cameras, ha, hc, rfl⟩ := World.create_camera_eq w sg node type near far h w1 hs
  exact ⟨hi.units, Paired_create _ _ hi.cameras c pool ha h cameras hc, hi.unit_objs⟩

theorem World.Inv_destroy_camera (w : World) (hi : w.Inv) (h : Id) (w2 : World)
    (hd : w.destroy_camera h = Except.ok w2) : w2.Inv := by
  obtain ⟨c, hm, _, rfl⟩ := World.destroy_camera_eq w h w2 hd
  exact ⟨hi.units, Paired_destroy _ _ hi.cameras h c hm, hi.unit_objs⟩

theorem Except.map_ok_inv {ε α β : Type} (f : α → β) (x : Except ε α) (b : β)
    (h : x.map f = Except.ok b) : ∃ a, x = Except.ok a ∧ f a = b := by
  cases x with
  | error e => cases h
  | ok a => exact ⟨a, rfl, by simpa [Except.map] using h⟩

theorem World.Inv_apply (w : World) (hi : w.Inv) (op : Op) (w1 : World)
    (ha : w.apply op = Except.ok w1) : w1.Inv := by
  cases op with
  | spawn_unit id ur pos rot =>
    obtain ⟨r, hr, rfl⟩ := Except.map_ok_inv _ _ _ ha
    exact World.Inv_spawn_unit w hi id ur pos rot r.1 r.2 hr
  | destroy_unit id => exact World.Inv_destroy_unit w hi id w1 ha
  | create_camera sg node type near far =>
    obtain ⟨r, hr, rfl⟩ := Except.map_ok_inv _ _ _ ha
    exact World.Inv_create_camera w hi sg node type near far r.1 r.2 hr
  | destroy_camera id => exact World.Inv_destroy_camera w hi id w1 ha

theorem World.run_cons_inv (w : World) (op : Op) (ops : List Op) (w2 : World)
    (hr : w.run (op :: ops) = Except.ok w2) :
    ∃ w1, w.apply op = Except.ok w1 ∧ w1.run ops = Except.ok w2 := by
  simp only [World.run] at hr
  split at hr
  · cases hr
  · rename_i w1 ha
    exact ⟨w1, ha, hr⟩

theorem World.Inv_run (ops : List Op) (w : World) (hi : w.Inv) (w2 : World)
    (hr : w.run ops = Except.ok w2) : w2.Inv := by
  induction ops generalizing w with
  | nil =>
    simp only [World.run, Except.ok.injEq] at hr
    subst hr; exact hi
  | cons op ops ih =>
    obtain ⟨w1, ha, hr2⟩ := World.run_cons_inv w op ops w2 hr
    exact ih w1 (World.Inv_apply w hi op w1 ha) hr2

/-! ## Theorems: handles (World::spawn_unit, destroy_unit, lookup_unit and the camera
counterparts) -/

theorem World.units_lt_apply (w : World) (op : Op) (w1 : World)
    (ha : w.apply op = Except.ok w1) (n : Nat) (hlt : n < w.m_units.next_id) :
    n < w1.m_units.next_id := by
  cases op with
  | spawn_unit id ur pos rot =>
    obtain ⟨r, hr, rfl⟩ := Except.map_ok_inv _ _ _ ha
    obtain ⟨u, pool, units, _, hc, h2⟩ := World.spawn_unit_eq w id ur pos rot r.1 r.2 hr
    obtain ⟨_, hn, _, _, _⟩ := IdArray.create_eq _ u r.1 units hc
    rw [h2]; simp only; omega
  | destroy_unit id =>
    obtain ⟨u, _, _, rfl⟩ := World.destroy_unit_eq w id w1 ha
    exact hlt
  | create_camera sg node type near far =>
    obtain ⟨r, hr, rfl⟩ := Except.map_ok_inv _ _ _ ha
    obtain ⟨c, pool, cameras, _, _, h2⟩ := World.create_camera_eq w sg node type near far r.1 r.2 hr
    rw [h2]; exact hlt
  | destroy_camera id =>
    obtain ⟨c, _, _, rfl⟩ := World.destroy_camera_eq w id w1 ha
    exact hlt

theorem World.cameras_lt_apply (w : World) (op : Op) (w1 : World)
    (ha : w.apply op = Except.ok w1) (n : Nat) (hlt : n < w.m_cameras.next_id) :
    n < w1.m_cameras.next_id := by
  cases op with
  | spawn_unit id ur pos rot =>
    obtain ⟨r, hr, rfl⟩ := Except.map_ok_inv _ _ _ ha
    obtain ⟨u, pool, units, _, _, h2⟩ := World.spawn_unit_eq w id ur pos rot r.1 r.2 hr
    rw [h2]; exact hlt
  | destroy_unit id =>
    obtain ⟨u, _, _, rfl⟩ := World.destroy_unit_eq w id w1 ha
    exact hlt
  | create_camera sg node type near far =>
    obtain ⟨r, hr, rfl⟩ := Except.map_ok_inv _ _ _ ha
    obtain ⟨c, pool, cameras, _, hc, h2⟩ := World.create_camera_eq w sg node type near far r.1 r.2 hr
    obtain ⟨_, hn, _, _, _⟩ := IdArray.create_eq _ c r.1 cameras hc
    rw [h2]; simp only; omega
  | destroy_camera id =>
    obtain ⟨c, _, _, rfl⟩ := World.destroy_camera_eq w id w1 ha
    exact hlt

theorem World.units_lt_run (ops : List Op) (w w2 : World) (hr : w.run ops = Except.ok w2)
    (n : Nat) (hlt : n < w.m_units.next_id) : n < w2.m_units.next_id := by
  induction ops generalizing w with
  | nil =>
    simp only [World.run, Except.ok.injEq] at hr
    subst hr; exact hlt
  | cons op ops ih =>
    obtain ⟨w1, ha, hr2⟩ := World.run_cons_inv w op ops w2 hr
    exact ih w1 hr2 (World.units_lt_apply w op w1 ha n hlt)

theorem World.cameras_lt_run (ops : List Op) (w w2 : World) (hr : w.run ops = Except.ok w2)
    (n : Nat) (hlt : n < w.m_cameras.next_id) : n < w2.m_cameras.next_id := by
  induction ops generalizing w with
  | nil =>
    simp only [World.run, Except.ok.injEq] at hr
    subst hr; exact hlt
  | cons op ops ih =>
    obtain ⟨w1, ha, hr2⟩ := World.run_cons_inv w op ops w2 hr
    exact ih w1 hr2 (World.cameras_lt_apply w op w1 ha n hlt)

/-- A unit handle that is not live and whose token was already handed out stays so
through any operation. -/
theorem World.units_dead_apply (w : World) (op : Op) (w1 : World)
    (ha : w.apply op = Except.ok w1) (h : Id) (hd : w.m_units.has h = false)
    (hlt : h.id < w.m_units.next_id) :
    w1.m_units.has h = false ∧ h.id < w1.m_units.next_id := by
  refine ⟨?_, World.units_lt_apply w op w1 ha h.id hlt⟩
  cases op with
  | spawn_unit id ur pos rot =>
    obtain ⟨r, hr, rfl⟩ := Except.map_ok_inv _ _ _ ha
    obtain ⟨u, pool, units, _, hc, h2⟩ := World.spawn_unit_eq w id ur pos rot r.1 r.2 hr
    rw [h2]
    exact (IdArray.has_create_of_false _ u h r.1 units hc hd hlt).1
  | destroy_unit id =>
    obtain ⟨u, _, _, rfl⟩ := World.destroy_unit_eq w id w1 ha
    exact IdArray.has_destroy_of_false _ h id hd
  | create_camera sg node type near far =>
    obtain ⟨r, hr, rfl⟩ := Except.map_ok_inv _ _ _ ha
    obtain ⟨c, pool, cameras, _, _, h2⟩ := World.create_camera_eq w sg node type near far r.1 r.2 hr
    rw [h2]; exact hd
  | destroy_camera id =>
    obtain ⟨c, _, _, rfl⟩ := World.destroy_camera_eq w id w1 ha
    exact hd

theorem World.cameras_dead_apply (w : World) (op : Op) (w1 : World)
    (ha : w.apply op = Except.ok w1) (h : Id) (hd : w.m_cameras.has h = false)
    (hlt : h.id < w.m_cameras.next_id) :
    w1.m_cameras.has h = false ∧ h.id < w1.m_cameras.next_id := by
  refine ⟨?_, World.cameras_lt_apply w op w1 ha h.id hlt⟩
  cases op with
  | spawn_unit id ur pos rot =>
    obtain ⟨r, hr, rfl⟩ := Except.map_ok_inv _ _ _ ha
    obtain ⟨u, pool, units, _, _, h2⟩ := World.spawn_unit_eq w id ur pos rot r.1 r.2 hr
    rw [h2]; exact hd
  | destroy_unit id =>
    obtain ⟨u, _, _, rfl⟩ := World.destroy_unit_eq w id w1 ha
    exact hd
  | create_camera sg node type near far =>
    obtain ⟨r, hr, rfl⟩ := Except.map_ok_inv _ _ _ ha
    obtain ⟨c, pool, cameras, _, hc, h2⟩ := World.create_camera_eq w sg node type near far r.1 r.2 hr
    rw [h2]
    exact (IdArray.has_create_of_false _ c h r.1 cameras hc hd hlt).1
  | destroy_camera id =>
    obtain ⟨c, _, _, rfl⟩ := World.destroy_camera_eq w id w1 ha
    exact IdArray.has_destroy_of_false _ h id hd

theorem World.units_dead_run (ops : List Op) (w w2 : World) (hr : w.run ops = Except.ok w2)
    (h : Id) (hd : w.m_units.has h = false) (hlt : h.id < w.m_units.next_id) :
    w2.m_units.has h = false := by
  induction ops generalizing w with
  | nil =>
    simp only [World.run, Except.ok.injEq] at hr
    subst hr; exact hd
  | cons op ops ih =>
    obtain ⟨w1, ha, hr2⟩ := World.run_cons_inv w op ops w2 hr
    obtain ⟨h1, h2⟩ := World.units_dead_apply w op w1 ha h hd hlt
    exact ih w1 hr2 h1 h2

theorem World.cameras_dead_run (ops : List Op) (w w2 : World) (hr : w.run ops = Except.ok w2)
    (h : Id) (hd : w.m_cameras.has h = false) (hlt : h.id < w.m_cameras.next_id) :
    w2.m_cameras.has h = false := by
  induction ops generalizing w with
  | nil =>
    simp only [World.run, Except.ok.injEq] at hr
    subst hr; exact hd
  | cons op ops ih =>
    obtain ⟨w1, ha, hr2⟩ := World.run_cons_inv w op ops w2 hr
    obtain ⟨h1, h2⟩ := World.cameras_dead_apply w op w1 ha h hd hlt
    exact ih w1 hr2 h1 h2

/-- Claim C4. In a world built by the four operations, a handle returned by
`spawn_unit` (resp. `create_camera`) looks up, right after the creation, the
object created for it; and once the matching `destroy_unit` (resp.
`destroy_camera`) has succeeded, `lookup` and a second destroy on the handle are
fatal, and stay fatal after any later operations, among them creations that take
the freed slot again. -/
theorem handle_lifecycle (cu cc : Nat) (ops0 : List Op) (w0 : World)
    (hreach : (World.new cu cc).run ops0 = Except.ok w0) :
    (∀ id ur pos rot h w1, w0.spawn_unit id ur pos rot = Except.ok (h, w1) →
      (∃ u, w1.lookup_unit h = Except.ok u ∧
        w1.unit_heap.read u =
          some { m_id := h, m_resource_id := id, m_resource := ur, rot := rot, pos := pos }) ∧
      ∀ ops1 w1b w2, w1.run ops1 = Except.ok w1b → w1b.destroy_unit h = Except.ok w2 →
        ∀ ops2 w3, w2.run ops2 = Except.ok w3 →
          w3.lookup_unit h = Except.error (Fatal.assert "Unit does not exist") ∧
          w3.destroy_unit h = Except.error (Fatal.assert "Unit does not exist")) ∧
    (∀ sg node type near far h w1,
      w0.create_camera sg node type near far = Except.ok (h, w1) →
      (∃ c, w1.lookup_camera h = Except.ok c ∧
        w1.camera_heap.read c =
          some { sg := sg, node := node, type := type, near := near, far := far }) ∧
      ∀ ops1 w1b w2, w1.run ops1 = Except.ok w1b → w1b.destroy_camera h = Except.ok w2 →
        ∀ ops2 w3, w2.run ops2 = Except.ok w3 →
          w3.lookup_camera h = Except.error (Fatal.assert "Camera does not exist") ∧
          w3.destroy_camera h = Except.error (Fatal.assert "Camera does not exist")) := by
  have hi0 := World.Inv_run ops0 _ (World.Inv_new cu cc) w0 hreach
  constructor
  · intro id ur pos rot h w1 hs
    obtain ⟨u, pool, units, ha, hc, hw1⟩ := World.spawn_unit_eq w0 id ur pos rot h w1 hs
    obtain ⟨hhas, hlook⟩ := IdArray.lookup_create _ hi0.units.wf u h units hc
    obtain ⟨hid, hnext, _, _, _⟩ := IdArray.create_eq _ u h units hc
    constructor
    · refine ⟨u, ?_, ?_⟩
      · rw [hw1]; simp [World.lookup_unit, hhas, hlook]
      · rw [hw1]; exact Heap.read_write_same _ _ _
    · intro ops1 w1b w2 hr1 hd ops2 w3 hr2
      have hlt1 : h.id < w1.m_units.next_id := by rw [hw1]; simp only; omega
      have hlt1b := World.units_lt_run ops1 w1 w1b hr1 h.id hlt1
      obtain ⟨p, _, _, hw2⟩ := World.destroy_unit_eq w1b h w2 hd
      have hdead2 : w2.m_units.has h = false := by
        rw [hw2]; exact IdArray.has_destroy_self _ h
      have hlt2 : h.id < w2.m_units.next_id := by rw [hw2]; exact hlt1b
      have hdead3 := World.units_dead_run ops2 w2 w3 hr2 h hdead2 hlt2
      obtain ⟨h1, h2⟩ := World.destroy_unit_dead w3 h hdead3
      exact ⟨h2, h1⟩
  · intro sg node type near far h w1 hs
    obtain ⟨c, pool, cameras, ha, hc, hw1⟩ :=
      World.create_camera_eq w0 sg node type near far h w1 hs
    obtain ⟨hhas, hlook⟩ := IdArray.lookup_create _ hi0.cameras.wf c h cameras hc
    obtain ⟨hid, hnext, _, _, _⟩ := IdArray.create_eq _ c h cameras hc
    constructor
    · refine ⟨c, ?_, ?_⟩
      · rw [hw1]; simp [World.lookup_camera, hhas, hlook]
      · rw [hw1]; exact Heap.read_write_same _ _ _
    · intro ops1 w1b w2 hr1 hd ops2 w3 hr2
      have hlt1 : h.id < w1.m_cameras.next_id := by rw [hw1]; simp only; omega
      have hlt1b := World.cameras_lt_run ops1 w1 w1b hr1 h.id hlt1
      obtain ⟨p, _, _, hw2⟩ := World.destroy_camera_eq w1b h w2 hd
      have hdead2 : w2.m_cameras.has h = false := by
        rw [hw2]; exact IdArray.has_destroy_self _ h
      have hlt2 : h.id < w2.m_cameras.next_id := by rw [hw2]; exact hlt1b
      have hdead3 := World.cameras_dead_run ops2 w2 w3 hr2 h hdead2 hlt2
      obtain ⟨h1, h2⟩ := World.destroy_camera_dead w3 h hdead3
      exact ⟨h2, h1⟩

/-- Claim C4, instantiated: with room for one unit, the unit spawned after the
first one is destroyed takes slot `0` again under the new handle `(0, 1)`, and the
old handle `(0, 0)` is still fatal to look up and to destroy; the same for a
camera. -/
theorem handle_lifecycle_witness :
    (sampleOneUnitAgain.m_units.has { index := 0, id := 1 } = true ∧
      sampleOneUnitAgain.lookup_unit { index := 0, id := 0 } =
        Except.error (Fatal.assert "Unit does not exist") ∧
      sampleOneUnitAgain.destroy_unit { index := 0, id := 0 } =
        Except.error (Fatal.assert "Unit does not exist")) ∧
    (sampleOneCameraAgain.m_cameras.has { index := 0, id := 1 } = true ∧
      sampleOneCameraAgain.lookup_camera { index := 0, id := 0 } =
        Except.error (Fatal.assert "Camera does not exist") ∧
      sampleOneCameraAgain.destroy_camera { index := 0, id := 0 } =
        Except.error (Fatal.assert "Camera does not exist")) :=
  ⟨⟨by decide,
    ((handle_lifecycle 1 1 [] (World.new 1 1) rfl).1 7 70 samplePos sampleRot
      { index := 0, id := 0 } sampleOneUnit rfl).2 [] sampleOneUnit sampleOneUnitDestroyed rfl rfl
      [Op.spawn_unit 8 80 samplePos sampleRot] sampleOneUnitAgain rfl⟩,
   ⟨by decide,
    ((handle_lifecycle 1 1 [] (World.new 1 1) rfl).2 5 0 1 10 1000
      { index := 0, id := 0 } sampleOneCamera rfl).2 [] sampleOneCamera sampleOneCameraDestroyed
      rfl rfl [Op.create_camera 6 0 1 10 1000] sampleOneCameraAgain rfl⟩⟩

/-! ## Theorems: pool occupancy (World::spawn_unit, World::destroy_unit) -/

theorem World.num_units_spawn_unit (w : World) (id ur : Nat) (pos : Vector3) (rot : Quaternion)
    (h : Id) (w1 : World) (hs : w.spawn_unit id ur pos rot = Except.ok (h, w1)) :
    w1.num_units = w.num_units + 1 ∧ h.id = w.m_units.next_id ∧
      w1.m_units.next_id = w.m_units.next_id + 1 ∧ w1.m_units.has h = true ∧
      w1.m_units.capacity = w.m_units.capacity ∧
      ∀ g, w.m_units.has g = true → w1.m_units.has g = true := by
  obtain ⟨u, pool, units, _, hc, rfl⟩ := World.spawn_unit_eq w id ur pos rot h w1 hs
  obtain ⟨hid, hnext, hent, hcap, _⟩ := IdArray.create_eq _ u h units hc
  refine ⟨by simp [World.num_units, IdArray.size, hent], hid, hnext, ?_, hcap, ?_⟩
  · exact (IdArray.has_iff units h).2 ⟨u, by rw [hent]; simp⟩
  · intro g hg
    exact IdArray.has_create_of_true _ u g h units hc hg

theorem World.spawn_units_spec (args : List (Nat × Nat)) (w : World) (hi : w.Inv)
    (pos : Vector3) (rot : Quaternion) (hs : List Id) (w1 : World)
    (hsp : w.spawn_units pos rot args = Except.ok (hs, w1)) :
    w1.Inv ∧ hs.length = args.length ∧ w1.num_units = w.num_units + args.length ∧
      (∀ h ∈ hs, w1.m_units.has h = true) ∧ hs.Nodup ∧
      (∀ h ∈ hs, w.m_units.next_id ≤ h.id) ∧
      (∀ g, w.m_units.has g = true → w1.m_units.has g = true) ∧
      w.m_units.next_id ≤ w1.m_units.next_id := by
  induction args generalizing w hs with
  | nil =>
    simp only [World.spawn_units, Except.ok.injEq, Prod.mk.injEq] at hsp
    obtain ⟨rfl, rfl⟩ := hsp
    simp [hi]
  | cons a rest ih =>
    simp only [World.spawn_units] at hsp
    split at hsp
    · cases hsp
    · rename_i h wa hspawn
      split at hsp
      · cases hsp
      · rename_i hs2 wb hrest
        simp only [Except.ok.injEq, Prod.mk.injEq] at hsp
        obtain ⟨rfl, rfl⟩ := hsp
        have hia := World.Inv_spawn_unit w hi a.1 a.2 pos rot h wa hspawn
        obtain ⟨hn, hid, hnext, hhas, _, hkeep⟩ :=
          World.num_units_spawn_unit w a.1 a.2 pos rot h wa hspawn
        obtain ⟨hib, hlen, hnum, hall, hnd, hge, hkeep2, hmono⟩ := ih wa hia hs2 hrest
        refine ⟨hib, by simp [hlen], by simp only [List.length_cons]; omega, ?_, ?_, ?_, ?_, ?_⟩
        · intro g hg
          rcases List.mem_cons.1 hg with rfl | hg
          · exact hkeep2 _ hhas
          · exact hall g hg
        · refine List.nodup_cons.2 ⟨?_, hnd⟩
          intro hmem
          have := hge h hmem
          omega
        · intro g hg
          rcases List.mem_cons.1 hg with rfl | hg
          · omega
          · have := hge g hg; omega
        · intro g hg
          exact hkeep2 g (hkeep g hg)
        · omega

theorem World.destroy_units_spec (hs : List Id) (w : World) (hi : w.Inv) (hnd : hs.Nodup)
    (hall : ∀ h ∈ hs, w.m_units.has h = true) :
    ∃ w2, w.destroy_units hs = Except.ok w2 ∧ w2.Inv ∧ w2.num_units + hs.length = w.num_units := by
  induction hs generalizing w with
  | nil => exact ⟨w, rfl, hi, rfl⟩
  | cons h rest ih =>
    obtain ⟨w1, hd⟩ := World.destroy_unit_ok w h (hall h (List.mem_cons_self _ _))
    have hi1 := World.Inv_destroy_unit w hi h w1 hd
    obtain ⟨u, hm, _, hw1⟩ := World.destroy_unit_eq w h w1 hd
    have hsize : w1.num_units + 1 = w.num_units := by
      rw [hw1]; exact IdArray.size_destroy _ hi.units.wf h u hm
    have hnd2 := List.nodup_cons.1 hnd
    have hall1 : ∀ g ∈ rest, w1.m_units.has g = true := by
      intro g hg
      have hne : g ≠ h := fun e => hnd2.1 (e ▸ hg)
      rw [hw1]
      exact IdArray.has_destroy_of_ne _ g h hne (hall g (List.mem_cons_of_mem _ hg))
    obtain ⟨w2, hd2, hi2, hn2⟩ := ih w1 hi1 hnd2.2 hall1
    refine ⟨w2, by simp [World.destroy_units, hd, hd2], hi2, ?_⟩
    simp only [List.length_cons]; omega

theorem World.spawn_unit_ok (w : World) (hi : w.Inv) (id ur : Nat) (pos : Vector3)
    (rot : Quaternion) (hlt : w.num_units < w.m_units.capacity) :
    ∃ h w1, w.spawn_unit id ur pos rot = Except.ok (h, w1) := by
  have hcount := hi.units.count_eq
  have hcap := hi.units.cap
  obtain ⟨b, pool, ha⟩ := PoolAllocator.allocate_ok w.m_unit_pool (by
    simp only [PoolAllocator.num_allocated, World.num_units] at hcount hlt
    omega)
  obtain ⟨h, units, hc⟩ := IdArray.create_ok w.m_units b (by
    simpa [World.num_units, IdArray.size] using hlt)
  simp only [World.spawn_unit, ha, hc]
  exact ⟨_, _, rfl⟩

theorem World.spawn_units_ok (args : List (Nat × Nat)) (w : World) (hi : w.Inv)
    (pos : Vector3) (rot : Quaternion)
    (hle : w.num_units + args.length ≤ w.m_units.capacity) :
    ∃ hs w1, w.spawn_units pos rot args = Except.ok (hs, w1) := by
  induction args generalizing w with
  | nil => exact ⟨[], w, rfl⟩
  | cons a rest ih =>
    simp only [List.length_cons] at hle
    obtain ⟨h, wa, hspawn⟩ := World.spawn_unit_ok w hi a.1 a.2 pos rot (by omega)
    have hia := World.Inv_spawn_unit w hi a.1 a.2 pos rot h wa hspawn
    obtain ⟨hn, _, _, _, hcap, _⟩ := World.num_units_spawn_unit w a.1 a.2 pos rot h wa hspawn
    obtain ⟨hs, wb, hrest⟩ := ih wa hia (by omega)
    exact ⟨h :: hs, wb, by simp [World.spawn_units, hspawn, hrest]⟩

theorem World.capacity_apply (w : World) (op : Op) (w1 : World)
    (ha : w.apply op = Except.ok w1) : w1.m_units.capacity = w.m_units.capacity := by
  cases op with
  | spawn_unit id ur pos rot =>
    obtain ⟨r, hr, rfl⟩ := Except.map_ok_inv _ _ _ ha
    exact (World.num_units_spawn_unit w id ur pos rot r.1 r.2 hr).2.2.2.2.1
  | destroy_unit id =>
    obtain ⟨u, _, _, rfl⟩ := World.destroy_unit_eq w id w1 ha
    rfl
  | create_camera sg node type near far =>
    obtain ⟨r, hr, rfl⟩ := Except.map_ok_inv _ _ _ ha
    obtain ⟨c, pool, cameras, _, _, h2⟩ := World.create_camera_eq w sg node type near far r.1 r.2 hr
    rw [h2]
  | destroy_camera id =>
    obtain ⟨c, _, _, rfl⟩ := World.destroy_camera_eq w id w1 ha
    rfl

theorem World.capacity_run (ops : List Op) (w w2 : World) (hr : w.run ops = Except.ok w2) :
    w2.m_units.capacity = w.m_units.capacity := by
  induction ops generalizing w with
  | nil =>
    simp only [World.run, Except.ok.injEq] at hr
    subst hr; rfl
  | cons op ops ih =>
    obtain ⟨w1, ha, hr2⟩ := World.run_cons_inv w op ops w2 hr
    rw [ih w1 hr2, World.capacity_apply w op w1 ha]

/-- Claim C5. In a world built by the four operations the number of allocated
unit-pool blocks equals the number of live unit handles. Spawning `N` units and
then destroying those `N`, in any order, succeeds and brings the number of
allocated blocks and `num_units()` back to what they were; and the `N` spawns
succeed whenever `num_units() + N` does not exceed the unit capacity. -/
theorem spawn_destroy_occupancy (cu cc : Nat) (ops0 : List Op) (w : World)
    (hreach : (World.new cu cc).run ops0 = Except.ok w) :
    w.m_unit_pool.num_allocated = w.num_units ∧
    (∀ pos rot args hs w1, w.spawn_units pos rot args = Except.ok (hs, w1) →
      hs.length = args.length ∧
      w1.num_units = w.num_units + args.length ∧
      w1.m_unit_pool.num_allocated = w.m_unit_pool.num_allocated + args.length ∧
      ∀ hs2, hs2.Perm hs →
        ∃ w2, w1.destroy_units hs2 = Except.ok w2 ∧
          w2.m_unit_pool.num_allocated = w.m_unit_pool.num_allocated ∧
          w2.num_units = w.num_units) ∧
    (∀ pos rot args, w.num_units + args.length ≤ cu →
      ∃ hs w1, w.spawn_units pos rot args = Except.ok (hs, w1)) := by
  have hi := World.Inv_run ops0 _ (World.Inv_new cu cc) w hreach
  have hcap : w.m_units.capacity = cu := World.capacity_run ops0 _ w hreach
  refine ⟨hi.units.count_eq, ?_, ?_⟩
  · intro pos rot args hs w1 hsp
    obtain ⟨hi1, hlen, hnum, hall, hnd, _, _, _⟩ :=
      World.spawn_units_spec args w hi pos rot hs w1 hsp
    refine ⟨hlen, hnum, by rw [hi1.units.count_eq, hi.units.count_eq]; exact hnum, ?_⟩
    intro hs2 hperm
    obtain ⟨w2, hd, hi2, hn2⟩ := World.destroy_units_spec hs2 w1 hi1
      ((hperm.nodup_iff).2 hnd) (fun h hh => hall h ((hperm.mem_iff).1 hh))
    have hl2 := hperm.length_eq
    have hfinal : w2.num_units = w.num_units := by omega
    exact ⟨w2, hd, by rw [hi2.units.count_eq, hi.units.count_eq]; exact hfinal, hfinal⟩
  · intro pos rot args hle
    exact World.spawn_units_ok args w hi pos rot (by rw [hcap]; exact hle)

/-- Claim C5, instantiated: in a world of capacity four that holds one unit, three
more units are spawned and destroyed in another order; one block is allocated
before and after, and `num_units()` is `1` before and after. -/
theorem spawn_destroy_occupancy_witness :
    sampleBusy.m_unit_pool.num_allocated = 1 ∧ sampleBusy.num_units = 1 ∧
    sampleThreeMore.2.num_units = 4 ∧
    ∃ w2, sampleThreeMore.2.destroy_units
        [{ index := 3, id := 3 }, { index := 1, id := 1 }, { index := 2, id := 2 }] =
          Except.ok w2 ∧
      w2.m_unit_pool.num_allocated = sampleBusy.m_unit_pool.num_allocated ∧
      w2.num_units = sampleBusy.num_units :=
  ⟨by decide, by decide, by decide,
   ((spawn_destroy_occupancy 4 2
      [Op.spawn_unit 1 10 samplePos sampleRot, Op.create_camera 5 0 1 10 1000] sampleBusy rfl).2.1
      samplePos sampleRot [(2, 20), (3, 30), (4, 20)] sampleThreeMore.1 sampleThreeMore.2 rfl).2.2.2
      [{ index := 3, id := 3 }, { index := 1, id := 1 }, { index := 2, id := 2 }]
      (by decide)⟩

/-! ## Theorems: World::reload_units -/

/-- The reload loop over pairwise different unit pointers: it calls `reload` on
those whose resource is `old_ur`, in order, and afterwards the object at a listed
address is the reloaded one if its resource was `old_ur` and the same one if not,
and the objects at other addresses are the same. -/
theorem reload_loop_spec (old_ur new_ur : Nat) (us : List Nat) (hnd : us.Nodup)
    (heap : Heap Unit) :
    (reload_loop old_ur new_ur us heap).2 =
      (us.filter (fun u =>
        decide ((heap.read u).map (fun o => o.m_resource) = some old_ur))).map
          (fun u => Effect.unit_reload u new_ur) ∧
    ∀ q, (reload_loop old_ur new_ur us heap).1.read q =
      if q ∈ us then
        (heap.read q).map (fun o => if o.m_resource = old_ur then o.reload new_ur else o)
      else heap.read q := by
  induction us generalizing heap with
  | nil => simp [reload_loop]
  | cons u rest ih =>
    obtain ⟨hu, hnd2⟩ := List.nodup_cons.1 hnd
    cases hr : heap.read u with
    | none =>
      obtain ⟨ih1, ih2⟩ := ih hnd2 heap
      simp only [reload_loop, hr]
      refine ⟨by simp [List.filter_cons, hr, ih1], ?_⟩
      intro q
      rw [ih2 q]
      by_cases hq : q = u
      · subst hq; simp [hu, hr]
      · simp [hq]
    | some obj =>
      by_cases hold : obj.m_resource = old_ur
      · obtain ⟨ih1, ih2⟩ := ih hnd2 (heap.write u (obj.reload new_ur))
        have hsame : ∀ q ∈ rest, (heap.write u (obj.reload new_ur)).read q = heap.read q := by
          intro q hq
          exact Heap.read_write_other _ _ _ _ (fun e => hu (e ▸ hq))
        simp only [reload_loop, hr, hold, if_true]
        constructor
        · rw [ih1]
          have hfil : rest.filter (fun u_1 => decide
              (((heap.write u (obj.reload new_ur)).read u_1).map (fun o => o.m_resource) =
                some old_ur)) =
              rest.filter (fun u_1 => decide
                ((heap.read u_1).map (fun o => o.m_resource) = some old_ur)) := by
            apply List.filter_congr
            intro q hq
            rw [hsame q hq]
          rw [hfil]
          simp [List.filter_cons, hr, hold]
        · intro q
          rw [ih2 q]
          by_cases hq : q = u
          · subst hq
            simp [hu, hr, hold, Heap.read_write_same]
          · by_cases hqr : q ∈ rest
            · simp [hq, hqr, hsame q hqr]
            · simp [hq, hqr, Heap.read_write_other _ _ _ _ hq]
      · obtain ⟨ih1, ih2⟩ := ih hnd2 heap
        simp only [reload_loop, hr, hold, if_false]
        refine ⟨by simp [List.filter_cons, hr, hold, ih1], ?_⟩
        intro q
        rw [ih2 q]
        by_cases hq : q = u
        · subst hq; simp [hu, hr, hold]
        · simp [hq]

/-- Claim C7. In a world built by the four operations, `reload_units(old, new)`
leaves the pools and the tables as they were, so the live handles, their values
and the pointers they map to are unchanged; it calls `reload(new)` exactly once
on every live unit whose resource pointer was `old`, after which that unit refers
to `new`, and makes no call on a live unit whose resource pointer was different,
which stays as it was. -/
theorem reload_units_spec (cu cc : Nat) (ops0 : List Op) (w : World)
    (hreach : (World.new cu cc).run ops0 = Except.ok w) (old_ur new_ur : Nat) :
    (w.reload_units old_ur new_ur).1.m_units = w.m_units ∧
    (w.reload_units old_ur new_ur).1.m_unit_pool = w.m_unit_pool ∧
    (w.reload_units old_ur new_ur).2 =
      (w.m_units.objects.filter (fun u =>
        decide ((w.unit_heap.read u).map (fun o => o.m_resource) = some old_ur))).map
          (fun u => Effect.unit_reload u new_ur) ∧
    ∀ h u, (h, u) ∈ w.m_units.entries →
      ∃ obj, w.unit_heap.read u = some obj ∧
        (obj.m_resource = old_ur →
          (w.reload_units old_ur new_ur).1.unit_heap.read u = some (obj.reload new_ur) ∧
          (w.reload_units old_ur new_ur).2.count (Effect.unit_reload u new_ur) = 1) ∧
        (obj.m_resource ≠ old_ur →
          (w.reload_units old_ur new_ur).1.unit_heap.read u = some obj ∧
          ∀ n, Effect.unit_reload u n ∉ (w.reload_units old_ur new_ur).2) := by
  have hi := World.Inv_run ops0 _ (World.Inv_new cu cc) w hreach
  have hnd := hi.units.objects_nodup
  obtain ⟨h1, h2⟩ := reload_loop_spec old_ur new_ur w.m_units.objects hnd w.unit_heap
  refine ⟨rfl, rfl, h1, ?_⟩
  intro h u hm
  obtain ⟨obj, hobj⟩ := hi.unit_objs (h, u) hm
  have hmem : u ∈ w.m_units.objects := List.mem_map.2 ⟨(h, u), hm, rfl⟩
  have hread := h2 u
  rw [if_pos hmem, hobj] at hread
  refine ⟨obj, hobj, ?_, ?_⟩
  · intro hold
    constructor
    · simp only [World.reload_units]
      rw [hread]; simp [hold]
    · simp only [World.reload_units]
      rw [h1]
      have hinj : Function.Injective (fun u => Effect.unit_reload u new_ur) := by
        intro a b hab
        simpa using hab
      have hnd2 : ((w.m_units.objects.filter (fun u =>
          decide ((w.unit_heap.read u).map (fun o => o.m_resource) = some old_ur))).map
            (fun u => Effect.unit_reload u new_ur)).Nodup :=
        (hnd.filter _).map hinj
      apply List.count_eq_one_of_mem hnd2
      apply List.mem_map.2
      exact ⟨u, List.mem_filter.2 ⟨hmem, by simp [hobj, hold]⟩, rfl⟩
  · intro hne
    constructor
    · simp only [World.reload_units]
      rw [hread]; simp [hne]
    · intro n hn
      simp only [World.reload_units] at hn
      rw [h1] at hn
      obtain ⟨q, hq, hqe⟩ := List.mem_map.1 hn
      simp only [Effect.unit_reload.injEq] at hqe
      obtain ⟨rfl, _⟩ := hqe
      have := (List.mem_filter.1 hq).2
      simp [hobj, hne] at this

/-- Claim C7, instantiated: of four live units with resources `10`, `20`, `30`,
`20`, reloading `20` to `99` calls `reload(99)` on the units at blocks `1` and `3`
and on no other, and the table is unchanged. -/
theorem reload_units_spec_witness :
    (sampleFourUnits.reload_units 20 99).2 =
      [Effect.unit_reload 1 99, Effect.unit_reload 3 99] ∧
    (sampleFourUnits.reload_units 20 99).1.m_units = sampleFourUnits.m_units ∧
    ((sampleFourUnits.reload_units 20 99).1.unit_heap.read 1).map (fun o => o.m_resource) =
      some 99 ∧
    ((sampleFourUnits.reload_units 20 99).1.unit_heap.read 2).map (fun o => o.m_resource) =
      some 30 := by
  have h := reload_units_spec 4 2
    [Op.spawn_unit 1 10 samplePos sampleRot, Op.create_camera 5 0 1 10 1000,
     Op.spawn_unit 2 20 samplePos sampleRot, Op.spawn_unit 3 30 samplePos sampleRot,
     Op.spawn_unit 4 20 samplePos sampleRot] sampleFourUnits rfl 20 99
  refine ⟨?_, h.1, ?_, ?_⟩
  · rw [h.2.2.1]; decide
  · decide
  · decide

/-! ## Theorems: World::~World and World::link_unit -/

/-- The delete loop of the destructor frees every block of the unit pool when the
allocated blocks are exactly the listed objects. -/
theorem delete_units_loop_empty (us : List Nat) (pool : PoolAllocator) (heap : Heap Unit)
    (hperm : pool.allocated.Perm us) :
    (delete_units_loop us pool heap).1.allocated = [] := by
  induction us generalizing pool heap with
  | nil => simpa [delete_units_loop] using hperm
  | cons u rest ih =>
    simp only [delete_units_loop]
    apply ih
    simp only [PoolAllocator.deallocate]
    have := hperm.erase u
    simpa using this

/-- In a world built by the four operations the destructor frees every block of
the unit pool and leaves the camera pool as it was. -/
theorem destructor_pools (cu cc : Nat) (ops0 : List Op) (w : World)
    (hreach : (World.new cu cc).run ops0 = Except.ok w) :
    w.destructor.m_unit_pool.num_allocated = 0 ∧
    w.destructor.m_camera_pool = w.m_camera_pool ∧
    w.destructor.m_camera_pool.num_allocated = w.m_cameras.size := by
  have hi := World.Inv_run ops0 _ (World.Inv_new cu cc) w hreach
  refine ⟨?_, rfl, hi.cameras.count_eq⟩
  simp [World.destructor, PoolAllocator.num_allocated,
    delete_units_loop_empty _ _ _ hi.units.perm]

/-- Claim C6, at the failing input: in the world built by spawning one unit and
creating one camera, the destructor frees the unit's block, but the camera's
block is still allocated in the camera pool afterwards. -/
theorem destructor_leaves_camera_allocated :
    (World.new 4 2).run
        [Op.spawn_unit 1 10 samplePos sampleRot, Op.create_camera 5 0 1 10 1000] =
      Except.ok sampleBusy ∧
    sampleBusy.m_unit_pool.num_allocated = 1 ∧
    sampleBusy.m_camera_pool.num_allocated = 1 ∧
    sampleBusy.destructor.m_unit_pool.num_allocated = 0 ∧
    sampleBusy.destructor.m_camera_pool.num_allocated = 1 ∧
    sampleBusy.destructor.m_sound_world = false :=
  ⟨rfl, by decide, by decide, by decide, by decide, by decide⟩

/-- The result of `link_unit` does not depend on which live child is passed. -/
theorem link_unit_ignores_child (w : World) (child1 child2 parent : Id) (node : Int)
    (h1 : w.m_units.has child1 = true) (h2 : w.m_units.has child2 = true) :
    w.link_unit child1 parent node = w.link_unit child2 parent node := by
  simp [World.link_unit, h1, h2]

/-- Claim C8, at the failing input: with four live units, linking the child
`(1, 1)` and linking the child `(2, 2)` to node `5` of the parent `(0, 0)` do the
same thing: one `link_node(0, 5)` call on the parent unit at block `0`, and
nothing on either child. A handle that is not live is fatal, as child and as
parent. -/
theorem link_unit_never_uses_child :
    sampleFourUnits.link_unit { index := 1, id := 1 } { index := 0, id := 0 } 5 =
      Except.ok [Effect.unit_link_node 0 0 5] ∧
    sampleFourUnits.link_unit { index := 2, id := 2 } { index := 0, id := 0 } 5 =
      Except.ok [Effect.unit_link_node 0 0 5] ∧
    sampleFourUnits.lookup_unit { index := 1, id := 1 } = Except.ok 1 ∧
    sampleFourUnits.lookup_unit { index := 2, id := 2 } = Except.ok 2 ∧
    sampleFourUnits.link_unit { index := 1, id := 9 } { index := 0, id := 0 } 5 =
      Except.error (Fatal.assert "Child unit does not exist") ∧
    sampleFourUnits.link_unit { index := 1, id := 1 } { index := 0, id := 9 } 5 =
      Except.error (Fatal.assert "Parent unit does not exist") :=
  ⟨rfl, rfl, rfl, rfl, rfl, rfl⟩

end Crown
